import Mathlib

/-!
A verification development for the G-code first-layer splitter
(`split_first_layer.py`).  The Python source is shallowly embedded:

* raw G-code text and instruction lines are Lean `String`s;
* Python numbers (`int` / `float`) are modelled by `PyNum`; `float` values
  are carried as exact rationals, so float rounding, `inf`/`nan` literals,
  underscore digit separators and the scientific-notation thresholds of
  Python's float `repr` are outside the model;
* Python exceptions are modelled by `Except PyErr`; `PyErr.indexError`
  stands for the `IndexError` raised by `line.split()[0]` on a
  whitespace-only line, `PyErr.valueError` for the `ValueError` raised by
  `float(...)` on a malformed numeric argument, and `PyErr.unknownInst`
  for the explicit `Exception` raised on an unrecognized instruction;
* regular-expression character classes (`\d`, `\w`) are modelled over
  ASCII.
-/

/-! ## Python string primitives -/

/-- Characters on which Python `str.splitlines` splits (``\r\n`` is
additionally treated as a single break). -/
def isLineBreakChar (c : Char) : Bool :=
  [10, 11, 12, 13, 28, 29, 30, 133, 8232, 8233].contains c.toNat

/-- Characters treated as whitespace by Python `str.split()` (Unicode
whitespace). -/
def isPySpace (c : Char) : Bool :=
  [9, 10, 11, 12, 13, 28, 29, 30, 31, 32, 133, 160, 5760,
    8232, 8233, 8239, 8287, 12288].contains c.toNat
  || (8192 ≤ c.toNat && c.toNat ≤ 8202)

/-- Worker for `pySplitlines`: `acc` holds the current (reversed) line. -/
def splitlinesGo : List Char → List Char → List String
  | [], acc => if acc.isEmpty then [] else [String.mk acc.reverse]
  | c :: cs, acc =>
    if isLineBreakChar c then
      String.mk acc.reverse ::
        (if c = Char.ofNat 13 then
          match cs with
          | c2 :: cs2 =>
            if c2 = Char.ofNat 10 then splitlinesGo cs2 [] else splitlinesGo (c2 :: cs2) []
          | [] => []
        else splitlinesGo cs [])
    else splitlinesGo cs (c :: acc)

/-- Python `str.splitlines()`. -/
def pySplitlines (s : String) : List String :=
  splitlinesGo s.toList []

/-- Worker for `pySplit`: `acc` holds the current (reversed) token. -/
def pySplitGo : List Char → List Char → List String
  | [], acc => if acc.isEmpty then [] else [String.mk acc.reverse]
  | c :: cs, acc =>
    if isPySpace c then
      if acc.isEmpty then pySplitGo cs [] else String.mk acc.reverse :: pySplitGo cs []
    else pySplitGo cs (c :: acc)

/-- Python `str.split()` with no separator argument: split on runs of
whitespace, discarding empty tokens. -/
def pySplit (s : String) : List String :=
  pySplitGo s.toList []

/-- Python `str.startswith`. -/
def strStartsWith (s p : String) : Bool :=
  p.toList.isPrefixOf s.toList

/-- Python slicing `s[n:]`. -/
def strDrop (s : String) (n : ℕ) : String :=
  String.mk (s.toList.drop n)

/-- Numeric value of a nonempty list of ASCII digits (Python `int`). -/
def digitsVal (ds : List Char) : ℕ :=
  ds.foldl (fun a c => 10 * a + (c.toNat - 48)) 0

/-- Python `float(s)` on decimal literals: optional sign, mantissa of
digits with an optional decimal point, optional exponent.  Returns the
exact rational the literal denotes; literals outside this fragment
(`inf`, `nan`, underscores, unicode digits, surrounding whitespace)
are not modelled and map to `none` like any malformed input. -/
def parseFloat (s : String) : Option ℚ :=
  let cs := s.toList
  let sgn : ℚ := if cs.head? = some (Char.ofNat 45) then -1 else 1
  let cs := if cs.head? = some (Char.ofNat 45) || cs.head? = some (Char.ofNat 43)
    then cs.drop 1 else cs
  let ip := cs.takeWhile Char.isDigit
  let cs1 := cs.dropWhile Char.isDigit
  let hasDot := cs1.head? = some (Char.ofNat 46)
  let cs2 := if hasDot then cs1.drop 1 else cs1
  let fp := if hasDot then cs2.takeWhile Char.isDigit else []
  let cs3 := if hasDot then cs2.dropWhile Char.isDigit else cs2
  if ip.isEmpty && fp.isEmpty then none
  else
    let mant : ℚ := sgn * ((digitsVal ip : ℚ) + (digitsVal fp : ℚ) / (10 : ℚ) ^ fp.length)
    match cs3 with
    | [] => some mant
    | e :: r =>
      if e = Char.ofNat 101 || e = Char.ofNat 69 then
        let esgn : ℤ := if r.head? = some (Char.ofNat 45) then -1 else 1
        let r1 := if r.head? = some (Char.ofNat 45) || r.head? = some (Char.ofNat 43)
          then r.drop 1 else r
        let ed := r1.takeWhile Char.isDigit
        let r2 := r1.dropWhile Char.isDigit
        if ed.isEmpty || !r2.isEmpty then none
        else some (mant * (10 : ℚ) ^ (esgn * (digitsVal ed : ℤ)))
      else none

/-- Hexadecimal digit character (lowercase), as used by Python `repr`
escapes. -/
def hexDigitChar (n : ℕ) : Char :=
  if n < 10 then Char.ofNat (48 + n) else Char.ofNat (87 + n)

/-- Escape of one character inside a Python string `repr` with quote
character `q`.  Non-printable characters above ASCII are kept verbatim
(outside the model). -/
def pyEscChar (q c : Char) : List Char :=
  if c = Char.ofNat 92 then [Char.ofNat 92, Char.ofNat 92]
  else if c = q then [Char.ofNat 92, q]
  else if c = Char.ofNat 9 then [Char.ofNat 92, Char.ofNat 116]
  else if c = Char.ofNat 10 then [Char.ofNat 92, Char.ofNat 110]
  else if c = Char.ofNat 13 then [Char.ofNat 92, Char.ofNat 114]
  else if c.toNat < 32 || c.toNat = 127 then
    [Char.ofNat 92, Char.ofNat 120, hexDigitChar (c.toNat / 16), hexDigitChar (c.toNat % 16)]
  else [c]

/-- Python `repr` of a string: single quotes, switching to double quotes
when the string contains a single quote but no double quote. -/
def pyRepr (s : String) : String :=
  let q := if s.toList.contains (Char.ofNat 39) && !s.toList.contains (Char.ofNat 34)
    then Char.ofNat 34 else Char.ofNat 39
  String.mk (q :: ((s.toList.map (pyEscChar q)).flatten ++ [q]))

/-! ## Python numbers -/

/-- A Python number: either an `int` or a `float` (carried as an exact
rational). -/
inductive PyNum where
  | int (i : ℤ)
  | float (q : ℚ)
deriving DecidableEq, Repr

/-- Numeric value of a `PyNum`. -/
def PyNum.toRat : PyNum → ℚ
  | .int i => (i : ℚ)
  | .float q => q

/-- Python `a + v` for `v` a float: the result is always a float. -/
def pyAddFloat (a : PyNum) (v : ℚ) : PyNum :=
  .float (a.toRat + v)

/-- Number of fractional decimal digits needed for `d`: the least `k`
with `d ∣ 10 ^ k`, searched up to `d`. -/
def decExp (d : ℕ) : Option ℕ :=
  (List.range (d + 1)).find? (fun k => 10 ^ k % d = 0)

/-- Decimal digits of `n` padded to width `k`. -/
def padDigits : ℕ → ℕ → List Char
  | _, 0 => []
  | n, k + 1 => padDigits (n / 10) k ++ [Char.ofNat (48 + n % 10)]

/-- Strip trailing zeros of a digit run, keeping at least one digit. -/
def stripTrailingZeros (ds : List Char) : List Char :=
  let r := (ds.reverse.dropWhile (fun c => c = Char.ofNat 48)).reverse
  if r.isEmpty then [Char.ofNat 48] else r

/-- Python `str` of a float, for floats that are short exact decimals
(the fragment produced by this program).  Rounding and scientific
notation of Python float `repr` are outside the model. -/
def pyFloatRepr (q : ℚ) : String :=
  if q.den = 1 then toString q.num ++ ".0"
  else
    match decExp q.den with
    | some k =>
      let a : ℕ := q.num.natAbs * 10 ^ k / q.den
      (if q.num < 0 then "-" else "") ++ toString (a / 10 ^ k) ++ "."
        ++ String.mk (stripTrailingZeros (padDigits (a % 10 ^ k) k))
    | none => toString q.num ++ "/" ++ toString q.den

/-- Python `str` of a `PyNum`, as interpolated by f-strings. -/
def pyNumRepr : PyNum → String
  | .int i => toString i
  | .float q => pyFloatRepr q

/-! ## Data model from the source -/

/-- Python exceptions that the embedded code can raise. -/
inductive PyErr where
  | unknownInst (msg : String)
  | indexError
  | valueError
deriving DecidableEq, Repr

/-- `PositioningType = Literal["rel", "abs", "unset"]`. -/
inductive PositioningType where
  | rel
  | abs
  | unset
deriving DecidableEq, Repr

def DEFAULT_TYPE : String := "unset"

def DEFAULT_MESH : String := "unset"

def DEFAULT_POSITIONING : PositioningType := .unset

def MOV_OPCODES : List String := ["G0", "G1", "G2", "G3"]

def CONTROL_OPCODES : List String :=
  ["M140", "M104", "M105", "M106", "M109", "M190", "G28", "M107", "M18", "M84", "G92"]

def META_OPCODES : List String := [";"]

/-- The `Segment` dataclass.  `layer` uses `Option ℤ` for
`int | Literal["unset"]` (`none` is `"unset"`). -/
structure Segment where
  layer : Option ℤ
  type : String
  mesh : String
  start_e_position : PyNum
  start_z_position : PyNum
  positioning_type : PositioningType := DEFAULT_POSITIONING
  extruder_positioning_type : PositioningType := DEFAULT_POSITIONING
  lines : List String := []
deriving DecidableEq, Repr

/-- `get_opcode`: first whitespace token of the line, collapsed to `";"`
for comments; `none` for the empty line; `IndexError` on a nonempty line
with no tokens (whitespace-only), from `line.split()[0]`. -/
def get_opcode (line : String) : Except PyErr (Option String) :=
  if line = "" then .ok none
  else
    match pySplit line with
    | [] => .error .indexError
    | t :: _ => .ok (some (if strStartsWith t ";" then ";" else t))

/-- `get_args`: all tokens after the opcode. -/
def get_args (line : String) : List String :=
  if line = "" then [] else (pySplit line).drop 1

/-- The value `get_opcode` yields when it does not raise (so also `none`
for the whitespace-only lines on which `get_opcode` raises). -/
def opcodeOf (line : String) : Option String :=
  match pySplit line with
  | [] => none
  | t :: _ => some (if strStartsWith t ";" then ";" else t)

/-! ## Position resolver (`Segment.last_e_position` / `last_z_position`) -/

/-- Reverse scan of `Segment.last_e_position` over a line list (the
segment's lines already reversed).  Mirrors the source: lines whose raw
first token is not `G0`/`G1` are skipped; on a qualifying line the first
`E`-prefixed argument is parsed with `float`; a zero value is falsy under
the `:=` walrus test and the scan continues. -/
def lastEGo (s : Segment) : List String → Except PyErr PyNum
  | [] => .ok s.start_e_position
  | line :: rest =>
    if line = "" then
      -- the guard `line and ...` is false, and the extraction generator
      -- over `line.split()[1:]` is empty, so the loop continues
      lastEGo s rest
    else
      match pySplit line with
      | [] => .error .indexError
      | t :: args =>
        if t = "G0" ∨ t = "G1" then
          match args.find? (fun a => strStartsWith a "E") with
          | none => lastEGo s rest
          | some tk =>
            match parseFloat (strDrop tk 1) with
            | none => .error .valueError
            | some v =>
              if v = 0 then lastEGo s rest
              else if s.extruder_positioning_type = .rel then
                .ok (pyAddFloat s.start_e_position v)
              else if s.extruder_positioning_type = .unset ∧ s.positioning_type = .rel then
                .ok (pyAddFloat s.start_e_position v)
              else .ok (.float v)
        else lastEGo s rest

/-- `Segment.last_e_position`. -/
def last_e_position (s : Segment) : Except PyErr PyNum :=
  lastEGo s s.lines.reverse

/-- Reverse scan of `Segment.last_z_position`: skips lines whose
`get_opcode` is not `G0`/`G1`, then takes the first `Z`-prefixed
argument; only the general positioning mode selects relative mode. -/
def lastZGo (s : Segment) : List String → Except PyErr PyNum
  | [] => .ok s.start_z_position
  | line :: rest =>
    match get_opcode line with
    | .error e => .error e
    | .ok op =>
      if op = some "G0" ∨ op = some "G1" then
        match (get_args line).find? (fun a => strStartsWith a "Z") with
        | none => lastZGo s rest
        | some tk =>
          match parseFloat (strDrop tk 1) with
          | none => .error .valueError
          | some v =>
            if v = 0 then lastZGo s rest
            else if s.positioning_type = .rel then .ok (pyAddFloat s.start_z_position v)
            else .ok (.float v)
      else lastZGo s rest

/-- `Segment.last_z_position`. -/
def last_z_position (s : Segment) : Except PyErr PyNum :=
  lastZGo s s.lines.reverse

/-- Opcode membership test of `Segment.control_lines`
(`get_opcode(line) in CONTROL_OPCODES | META_OPCODES`). -/
def opInCtrlMeta : Option String → Bool
  | some t => CONTROL_OPCODES.contains t || META_OPCODES.contains t
  | none => false

/-- Worker for `control_lines`: the list comprehension evaluates
`get_opcode` on each line in order. -/
def controlGo : List String → Except PyErr (List String)
  | [] => .ok []
  | l :: rest =>
    match get_opcode l with
    | .error e => .error e
    | .ok op =>
      match controlGo rest with
      | .error e => .error e
      | .ok cls => .ok (if opInCtrlMeta op then l :: cls else cls)

/-- `Segment.control_lines`. -/
def control_lines (s : Segment) : Except PyErr (List String) :=
  controlGo s.lines

/-! ## Line classifier: marker patterns -/

/-- ASCII `\w`. -/
def isWordChar (c : Char) : Bool :=
  c.isAlphanum || c = Char.ofNat 95

/-- `layer_pattern.match(line)` for `;LAYER:(\d+)` (`re.match` anchors at
the start only, so trailing text after the digits is accepted), combined
with the `int()` conversion of the captured group. -/
def layer_match (line : String) : Option ℕ :=
  if strStartsWith line ";LAYER:" then
    let ds := (line.toList.drop 7).takeWhile Char.isDigit
    if ds.isEmpty then none else some (digitsVal ds)
  else none

/-- `type_pattern.match(line)` for `;TYPE:(\w+)`. -/
def type_match (line : String) : Option String :=
  if strStartsWith line ";TYPE:" then
    let ws := (line.toList.drop 6).takeWhile isWordChar
    if ws.isEmpty then none else some (String.mk ws)
  else none

/-- `mesh_pattern.match(line)` for `;MESH:(.*)` (`.` stops at a line
feed). -/
def mesh_match (line : String) : Option String :=
  if strStartsWith line ";MESH:" then
    some (String.mk ((line.toList.drop 6).takeWhile (fun c => c ≠ Char.ofNat 10)))
  else none

/-- Opcode recognized by the final `elif` of the parser
(`get_opcode(line) in MOV_OPCODES | CONTROL_OPCODES | META_OPCODES`). -/
def opRecognized : Option String → Bool
  | some t => MOV_OPCODES.contains t || CONTROL_OPCODES.contains t || META_OPCODES.contains t
  | none => false

/-! ## Segmentation engine (`parse_gcode`) -/

/-- The running state of `parse_gcode`: the closed segments (most recent
first), the currently open segment (`segments[-1]` in the source), and
the tracked locals. -/
structure ParseState where
  finishedRev : List Segment
  current : Segment
  layer : Option ℤ
  positioning_type : PositioningType
  extruder_positioning_type : PositioningType
  segment_type : String
  segment_mesh : String
deriving DecidableEq, Repr

/-- The initial segment constructed at the top of `parse_gcode`. -/
def initSegment : Segment :=
  { layer := none
    type := DEFAULT_TYPE
    mesh := DEFAULT_MESH
    start_e_position := .int 0
    start_z_position := .int 0 }

/-- The initial parser state. -/
def initState : ParseState :=
  { finishedRev := []
    current := initSegment
    layer := none
    positioning_type := DEFAULT_POSITIONING
    extruder_positioning_type := DEFAULT_POSITIONING
    segment_type := DEFAULT_TYPE
    segment_mesh := DEFAULT_MESH }

/-- `segments[-1].lines.append(line)`. -/
def appendLine (st : ParseState) (line : String) : ParseState :=
  { st with current := { st.current with lines := st.current.lines ++ [line] } }

/-- `open_new_segment()`: resolve the current segment's final positions
and open a fresh segment carrying the tracked state. -/
def openNewSegment (st : ParseState) : Except PyErr ParseState :=
  match last_e_position st.current with
  | .error e => .error e
  | .ok ev =>
    match last_z_position st.current with
    | .error e => .error e
    | .ok zv =>
      .ok { st with
        finishedRev := st.current :: st.finishedRev
        current :=
          { layer := st.layer
            type := st.segment_type
            mesh := st.segment_mesh
            positioning_type := st.positioning_type
            extruder_positioning_type := st.extruder_positioning_type
            start_e_position := ev
            start_z_position := zv
            lines := [] } }

/-- `open_new_segment()` followed by appending the triggering line to the
new segment. -/
def stepOpen (st : ParseState) (line : String) : Except PyErr ParseState :=
  match openNewSegment st with
  | .error e => .error e
  | .ok st2 => .ok (appendLine st2 line)

/-- The error message of the final `raise` in `parse_gcode`
(`f"unknown inst in line num {lineno}: {line!r}"`; `lineno` comes from
`enumerate` and is 0-based). -/
def mkUnknownMsg (i : ℕ) (line : String) : String :=
  "unknown inst in line num " ++ toString i ++ ": " ++ pyRepr line

/-- One iteration of the `for lineno, line in enumerate(...)` loop of
`parse_gcode`, with the branch cascade in source order. -/
def parseStep (i : ℕ) (st : ParseState) (line : String) : Except PyErr ParseState :=
  if line = "" then .ok (appendLine st line)
  else
    match layer_match line with
    | some n => stepOpen { st with layer := some (n : ℤ), segment_type := DEFAULT_TYPE } line
    | none =>
      match type_match line with
      | some tn => stepOpen { st with segment_type := tn } line
      | none =>
        match mesh_match line with
        | some mn => stepOpen { st with segment_mesh := mn, segment_type := "unset" } line
        | none =>
          match get_opcode line with
          | .error e => .error e
          | .ok op =>
            if op = some "M82" then
              stepOpen { st with extruder_positioning_type := .abs } line
            else if op = some "M83" then
              stepOpen { st with extruder_positioning_type := .rel } line
            else if op = some "G90" then
              stepOpen { st with positioning_type := .abs, extruder_positioning_type := .unset } line
            else if op = some "G91" then
              stepOpen { st with positioning_type := .rel, extruder_positioning_type := .unset } line
            else if strStartsWith line "M140 S0" then
              stepOpen { st with layer := none } line
            else if opRecognized op then .ok (appendLine st line)
            else .error (.unknownInst (mkUnknownMsg i line))

/-- The whole enumerated loop of `parse_gcode`. -/
def parseRun (i : ℕ) (st : ParseState) : List String → Except PyErr ParseState
  | [] => .ok st
  | l :: ls =>
    match parseStep i st l with
    | .error e => .error e
    | .ok st2 => parseRun (i + 1) st2 ls

/-- `parse_gcode`: run the loop over `gcode.splitlines()` and return the
segments in order (closed segments followed by the open one). -/
def parse_gcode (gcode : String) : Except PyErr (List Segment) :=
  match parseRun 0 initState (pySplitlines gcode) with
  | .error e => .error e
  | .ok st => .ok (st.finishedRev.reverse ++ [st.current])

/-- The flattened line stream of a segment list, in segment order then
line order. -/
def segsLines : List Segment → List String
  | [] => []
  | s :: rest => s.lines ++ segsLines rest

/-- `to_gcode`: newline-join of every segment's lines. -/
def to_gcode (segments : List Segment) : String :=
  String.intercalate "\n" (segsLines segments)

/-! ## Splitter (the segment loop of `main`) -/

/-- The two lists a single loop iteration of `main` appends for one
segment, given the previous segment (`prev_segment`): contributions to
the first and to the second output. -/
def splitContrib (split_at : ℤ) (keep_skirt : Bool) (prev : Option Segment) (seg : Segment) :
    Except PyErr (List Segment × List Segment) :=
  match seg.layer with
  | none => .ok ([seg], [seg])
  | some n =>
    if keep_skirt = true ∧ seg.type = "SKIRT" then .ok ([seg], [seg])
    else if n ≤ split_at then
      match control_lines seg with
      | .error e => .error e
      | .ok cl => .ok ([seg], [{ seg with lines := cl }])
    else
      match prev with
      | some p =>
        match last_e_position p with
        | .error e => .error e
        | .ok ev =>
          match last_z_position p with
          | .error e => .error e
          | .ok zv =>
            .ok ([],
              [{ seg with
                  lines := ("G92 E" ++ pyNumRepr ev) :: ("G0 Z" ++ pyNumRepr zv) :: seg.lines }])
      | none => .ok ([], [seg])

/-- The segment loop of `main`, threading `prev_segment`. -/
def splitGo (split_at : ℤ) (keep_skirt : Bool) :
    Option Segment → List Segment → Except PyErr (List Segment × List Segment)
  | _, [] => .ok ([], [])
  | prev, seg :: rest =>
    match splitContrib split_at keep_skirt prev seg with
    | .error e => .error e
    | .ok c =>
      match splitGo split_at keep_skirt (some seg) rest with
      | .error e => .error e
      | .ok (f, s) => .ok (c.1 ++ f, c.2 ++ s)

/-- The split of `main`: first and second print segment lists. -/
def split_segments (split_at : ℤ) (keep_skirt : Bool) (segs : List Segment) :
    Except PyErr (List Segment × List Segment) :=
  splitGo split_at keep_skirt none segs

/-! ## Helper lemmas: opcode classification -/

/-- A successful `get_opcode` returns `opcodeOf`. -/
theorem get_opcode_ok {l : String} {op : Option String} (h : get_opcode l = .ok op) :
    op = opcodeOf l := by
  by_cases hl : l = ""
  · subst hl
    have he : get_opcode "" = .ok none := rfl
    rw [he] at h
    injection h with h2
    exact h2.symm ▸ rfl
  · simp only [get_opcode, if_neg hl] at h
    unfold opcodeOf
    cases hs : pySplit l with
    | nil => rw [hs] at h; cases h
    | cons t ts => rw [hs] at h; cases h; rfl

/-- `get_opcode` succeeds exactly on lines that are empty or have a
token. -/
theorem get_opcode_ok_of_tok {l : String} (h : l = "" ∨ pySplit l ≠ []) :
    get_opcode l = .ok (opcodeOf l) := by
  rcases h with h | h
  · subst h; rfl
  · unfold get_opcode opcodeOf
    cases hs : pySplit l with
    | nil => exact absurd hs h
    | cons t ts =>
      by_cases hl : l = ""
      · subst hl; cases hs
      · simp [hl]

/-- `control_lines` success determines the filtered control lines. -/
theorem controlGo_eq_filter : ∀ {ls : List String} {cl : List String},
    controlGo ls = .ok cl → cl = ls.filter (fun l => opInCtrlMeta (opcodeOf l))
  | [], cl, h => by
    simp only [controlGo, Except.ok.injEq] at h
    simp [← h]
  | l :: rest, cl, h => by
    unfold controlGo at h
    cases hop : get_opcode l with
    | error e => rw [hop] at h; cases h
    | ok op =>
      rw [hop] at h
      cases hrest : controlGo rest with
      | error e => rw [hrest] at h; cases h
      | ok cls =>
        rw [hrest] at h
        cases h
        have hv := get_opcode_ok hop
        subst hv
        rw [List.filter_cons, ← controlGo_eq_filter hrest]

/-! ## Helper lemmas: splitter structure -/

/-- Unfolding one splitter iteration on a successful run. -/
theorem splitGo_cons_ok {k : ℤ} {ks : Bool} {prev : Option Segment} {seg : Segment}
    {rest : List Segment} {out : List Segment × List Segment}
    (h : splitGo k ks prev (seg :: rest) = .ok out) :
    ∃ c f s, splitContrib k ks prev seg = .ok c ∧
      splitGo k ks (some seg) rest = .ok (f, s) ∧ out = (c.1 ++ f, c.2 ++ s) := by
  unfold splitGo at h
  cases hc : splitContrib k ks prev seg with
  | error e => rw [hc] at h; cases h
  | ok c =>
    rw [hc] at h
    cases hg : splitGo k ks (some seg) rest with
    | error e => rw [hg] at h; cases h
    | ok fs =>
      rw [hg] at h
      obtain ⟨f, s⟩ := fs
      cases h
      exact ⟨c, f, s, rfl, rfl, rfl⟩

/-- Every input segment of a successful split got a successful
contribution, wholly contained in the outputs. -/
theorem splitGo_mem {k : ℤ} {ks : Bool} : ∀ {segs : List Segment} {prev : Option Segment}
    {out : List Segment × List Segment}, splitGo k ks prev segs = .ok out →
    ∀ {seg : Segment}, seg ∈ segs →
    ∃ prev2 c, splitContrib k ks prev2 seg = .ok c ∧
      (∀ x ∈ c.1, x ∈ out.1) ∧ (∀ x ∈ c.2, x ∈ out.2)
  | [], _, _, _, _, hm => absurd hm (List.not_mem_nil _)
  | sg :: rest, prev, out, h, seg, hm => by
    obtain ⟨c, f, s, hc, hg, hout⟩ := splitGo_cons_ok h
    subst hout
    rcases List.mem_cons.mp hm with heq | hmem
    · subst heq
      exact ⟨prev, c, hc, fun x hx => List.mem_append_left _ hx,
        fun x hx => List.mem_append_left _ hx⟩
    · obtain ⟨prev2, c2, hc2, h1, h2⟩ := splitGo_mem hg hmem
      exact ⟨prev2, c2, hc2, fun x hx => List.mem_append_right _ (h1 x hx),
        fun x hx => List.mem_append_right _ (h2 x hx)⟩

/-- Adjacent-pair version: the contribution of the segment at position
`i + 1` is computed with the segment at position `i` as `prev_segment`. -/
theorem splitGo_pair {k : ℤ} {ks : Bool} : ∀ {segs : List Segment} {prev : Option Segment}
    {out : List Segment × List Segment}, splitGo k ks prev segs = .ok out →
    ∀ (i : ℕ) (hi : i + 1 < segs.length),
    ∃ c, splitContrib k ks (some (segs.get ⟨i, by omega⟩)) (segs.get ⟨i + 1, hi⟩) = .ok c ∧
      (∀ x ∈ c.1, x ∈ out.1) ∧ (∀ x ∈ c.2, x ∈ out.2)
  | [], _, _, _, i, hi => by simp at hi
  | sg :: rest, prev, out, h, i, hi => by
    obtain ⟨c, f, s, hc, hg, hout⟩ := splitGo_cons_ok h
    subst hout
    cases i with
    | zero =>
      cases rest with
      | nil => simp at hi
      | cons sg2 rest2 =>
        obtain ⟨c2, f2, s2, hc2, _, hout2⟩ := splitGo_cons_ok hg
        have hf : f = c2.1 ++ f2 := congrArg Prod.fst hout2
        have hs2 : s = c2.2 ++ s2 := congrArg Prod.snd hout2
        refine ⟨c2, hc2, fun x hx => ?_, fun x hx => ?_⟩
        · show x ∈ c.1 ++ f
          refine List.mem_append_right _ ?_
          rw [hf]
          exact List.mem_append_left _ hx
        · show x ∈ c.2 ++ s
          refine List.mem_append_right _ ?_
          rw [hs2]
          exact List.mem_append_left _ hx
    | succ j =>
      have hj : j + 1 < rest.length := by simpa using hi
      obtain ⟨c2, hc2, h1, h2⟩ := splitGo_pair hg j hj
      exact ⟨c2, hc2, fun x hx => List.mem_append_right _ (h1 x hx),
        fun x hx => List.mem_append_right _ (h2 x hx)⟩


/-! ## Helper lemmas: `splitContrib` branch characterizations -/

/-- An `Unset`-layer segment contributes an unmodified copy to both
outputs. -/
theorem splitContrib_unset {k : ℤ} {ks : Bool} {prev : Option Segment} {seg : Segment}
    (hl : seg.layer = none) : splitContrib k ks prev seg = .ok ([seg], [seg]) := by
  obtain ⟨lay, ty, me, se, sz, pt, ept, lns⟩ := seg
  have hl2 : lay = none := hl
  subst hl2
  rfl

/-- A kept skirt segment contributes an unmodified copy to both
outputs. -/
theorem splitContrib_skirt {k : ℤ} {ks : Bool} {prev : Option Segment} {seg : Segment} {n : ℤ}
    (hl : seg.layer = some n) (hsk : ks = true ∧ seg.type = "SKIRT") :
    splitContrib k ks prev seg = .ok ([seg], [seg]) := by
  obtain ⟨lay, ty, me, se, sz, pt, ept, lns⟩ := seg
  have hl2 : lay = some n := hl
  subst hl2
  have hsk2 : ks = true ∧ ty = "SKIRT" := hsk
  simp only [splitContrib]
  rw [if_pos hsk2]

/-- A successful contribution of a `layer ≤ split_at` segment: the
segment itself to the first output, a `control_lines` copy to the
second. -/
theorem splitContrib_le {k : ℤ} {ks : Bool} {prev : Option Segment} {seg : Segment} {n : ℤ}
    {c : List Segment × List Segment} (hl : seg.layer = some n)
    (hsk : ¬(ks = true ∧ seg.type = "SKIRT")) (hn : n ≤ k)
    (hc : splitContrib k ks prev seg = .ok c) :
    ∃ cl, control_lines seg = .ok cl ∧ c = ([seg], [{ seg with lines := cl }]) := by
  obtain ⟨lay, ty, me, se, sz, pt, ept, lns⟩ := seg
  have hl2 : lay = some n := hl
  subst hl2
  have hsk2 : ¬(ks = true ∧ ty = "SKIRT") := hsk
  simp only [splitContrib] at hc
  rw [if_neg hsk2, if_pos hn] at hc
  cases hcl : controlGo lns with
  | error e => rw [show control_lines ⟨some n, ty, me, se, sz, pt, ept, lns⟩
      = controlGo lns from rfl, hcl] at hc; cases hc
  | ok cl =>
    rw [show control_lines ⟨some n, ty, me, se, sz, pt, ept, lns⟩
      = controlGo lns from rfl, hcl] at hc
    cases hc
    exact ⟨cl, hcl, rfl⟩

/-- A successful contribution of a `layer > split_at` segment with a
preceding segment: nothing to the first output, and a copy with the two
synthetic continuity lines prepended to the second. -/
theorem splitContrib_gt {k : ℤ} {ks : Bool} {p : Segment} {seg : Segment} {n : ℤ}
    {c : List Segment × List Segment} (hl : seg.layer = some n)
    (hsk : ¬(ks = true ∧ seg.type = "SKIRT")) (hn : ¬ n ≤ k)
    (hc : splitContrib k ks (some p) seg = .ok c) :
    ∃ ev zv, last_e_position p = .ok ev ∧ last_z_position p = .ok zv ∧
      c = ([], [{ seg with
        lines := ("G92 E" ++ pyNumRepr ev) :: ("G0 Z" ++ pyNumRepr zv) :: seg.lines }]) := by
  obtain ⟨lay, ty, me, se, sz, pt, ept, lns⟩ := seg
  have hl2 : lay = some n := hl
  subst hl2
  have hsk2 : ¬(ks = true ∧ ty = "SKIRT") := hsk
  simp only [splitContrib] at hc
  rw [if_neg hsk2, if_neg hn] at hc
  cases he : last_e_position p with
  | error e => rw [he] at hc; cases hc
  | ok ev =>
    rw [he] at hc
    cases hz : last_z_position p with
    | error e => rw [hz] at hc; cases hc
    | ok zv =>
      rw [hz] at hc
      cases hc
      exact ⟨ev, zv, rfl, rfl, rfl⟩

/-- A `layer > split_at` segment with no preceding segment contributes an
unmodified copy to the second output only. -/
theorem splitContrib_gt_none {k : ℤ} {ks : Bool} {seg : Segment} {n : ℤ}
    (hl : seg.layer = some n) (hsk : ¬(ks = true ∧ seg.type = "SKIRT")) (hn : ¬ n ≤ k) :
    splitContrib k ks none seg = .ok ([], [seg]) := by
  obtain ⟨lay, ty, me, se, sz, pt, ept, lns⟩ := seg
  have hl2 : lay = some n := hl
  subst hl2
  have hsk2 : ¬(ks = true ∧ ty = "SKIRT") := hsk
  simp only [splitContrib]
  rw [if_neg hsk2, if_neg hn]

/-! ## Claim C5 -/

/-- C5 (confirmed): every segment with a non-`Unset` layer `≤ split_at`
that is not an `Unset` or kept-skirt segment is appended unmodified to
the first output, and appended to the second output as a copy identical
in every field except that its lines are replaced by exactly its
`control_lines` — the subset of its lines whose opcode is a control
opcode or a comment, in original order. -/
theorem splitter_lower_copies (k : ℤ) (ks : Bool) (segs : List Segment)
    (out : List Segment × List Segment) (h : split_segments k ks segs = .ok out)
    (seg : Segment) (hm : seg ∈ segs) (n : ℤ) (hl : seg.layer = some n) (hn : n ≤ k)
    (hsk : ¬(ks = true ∧ seg.type = "SKIRT")) :
    seg ∈ out.1 ∧ ∃ cl, control_lines seg = .ok cl ∧
      cl = seg.lines.filter (fun l => opInCtrlMeta (opcodeOf l)) ∧
      ({ seg with lines := cl } : Segment) ∈ out.2 := by
  obtain ⟨prev2, c, hc, h1, h2⟩ := splitGo_mem h hm
  obtain ⟨cl, hcl, hceq⟩ := splitContrib_le hl hsk hn hc
  subst hceq
  exact ⟨h1 _ (by simp), cl, hcl, controlGo_eq_filter hcl, h2 _ (by simp)⟩

/-! ## Claim C6 -/

/-- C6 (confirmed): every segment whose layer is `Unset` is appended
unmodified to both outputs; with `keep_skirt` enabled, every
`SKIRT`-typed segment is appended unmodified to both outputs; and every
input segment contributes a copy (possibly with rewritten lines, equal
in all other fields) to at least one output, so no segment is dropped
from both. -/
theorem splitter_shared_segments (k : ℤ) (ks : Bool) (segs : List Segment)
    (out : List Segment × List Segment) (h : split_segments k ks segs = .ok out)
    (seg : Segment) (hm : seg ∈ segs) :
    (seg.layer = none → seg ∈ out.1 ∧ seg ∈ out.2) ∧
    (ks = true → seg.type = "SKIRT" → seg ∈ out.1 ∧ seg ∈ out.2) ∧
    ∃ ls, ({ seg with lines := ls } : Segment) ∈ out.1 ∨
      ({ seg with lines := ls } : Segment) ∈ out.2 := by
  obtain ⟨prev2, c, hc, h1, h2⟩ := splitGo_mem h hm
  obtain ⟨lay, ty, me, se, sz, pt, ept, lns⟩ := seg
  cases lay with
  | none =>
    rw [splitContrib_unset rfl] at hc
    cases hc
    exact ⟨fun _ => ⟨h1 _ (by simp), h2 _ (by simp)⟩,
      fun _ _ => ⟨h1 _ (by simp), h2 _ (by simp)⟩,
      lns, Or.inl (h1 _ (by simp))⟩
  | some n =>
    by_cases hsk : ks = true ∧ ty = "SKIRT"
    · rw [splitContrib_skirt (Eq.refl (some n)) hsk] at hc
      cases hc
      exact ⟨fun h0 => by simp at h0,
        fun _ _ => ⟨h1 _ (by simp), h2 _ (by simp)⟩,
        lns, Or.inl (h1 _ (by simp))⟩
    · refine ⟨fun h0 => by simp at h0, fun hks htype => absurd ⟨hks, htype⟩ hsk, ?_⟩
      by_cases hn : n ≤ k
      · obtain ⟨cl, hcl, hceq⟩ := splitContrib_le (Eq.refl (some n)) hsk hn hc
        subst hceq
        exact ⟨lns, Or.inl (h1 _ (by simp))⟩
      · cases prev2 with
        | none =>
          rw [splitContrib_gt_none (Eq.refl (some n)) hsk hn] at hc
          cases hc
          exact ⟨lns, Or.inr (h2 _ (by simp))⟩
        | some p =>
          obtain ⟨ev, zv, _, _, hceq⟩ := splitContrib_gt (Eq.refl (some n)) hsk hn hc
          subst hceq
          exact ⟨("G92 E" ++ pyNumRepr ev) :: ("G0 Z" ++ pyNumRepr zv) :: lns,
            Or.inr (h2 _ (by simp))⟩

/-! ## Claim C4 -/

/-- C4 (amended claim, proved): every segment with a non-`Unset` layer
greater than `split_at` that is not a kept skirt and has a preceding
segment is appended to the second output with exactly two synthetic
lines prepended before its own lines: a `G92` pinning the extruder to
the *immediately preceding input segment's* resolved `last_e_position`,
and a `G0` pinning height to its resolved `last_z_position`.  (The
pinned value is the immediately preceding segment's, which need not be
the resolved ending extruder position of the last included
`layer ≤ split_at` segment — see the counterexample.) -/
theorem splitter_continuation_pin (k : ℤ) (ks : Bool) (segs : List Segment)
    (out : List Segment × List Segment) (h : split_segments k ks segs = .ok out)
    (i : ℕ) (hi : i + 1 < segs.length) (n : ℤ)
    (hl : (segs.get ⟨i + 1, hi⟩).layer = some n) (hk : k < n)
    (hsk : ¬(ks = true ∧ (segs.get ⟨i + 1, hi⟩).type = "SKIRT")) :
    ∃ ev zv, last_e_position (segs.get ⟨i, by omega⟩) = .ok ev ∧
      last_z_position (segs.get ⟨i, by omega⟩) = .ok zv ∧
      ({ segs.get ⟨i + 1, hi⟩ with
          lines := ("G92 E" ++ pyNumRepr ev) :: ("G0 Z" ++ pyNumRepr zv)
            :: (segs.get ⟨i + 1, hi⟩).lines } : Segment) ∈ out.2 := by
  obtain ⟨c, hc, _, h2⟩ := splitGo_pair h i hi
  obtain ⟨ev, zv, he, hz, hceq⟩ := splitContrib_gt hl hsk (not_le.mpr hk) hc
  subst hceq
  exact ⟨ev, zv, he, hz, h2 _ (by simp)⟩

/-! ## Concrete data for the splitter claims -/

/-- Input exercising the splitter: layer 0 extrudes to `E5`, a shutdown
marker opens an `Unset` segment that extrudes further to `E7`, then
layer 1 follows. -/
def cexInput : String := ";LAYER:0\nG1 E5\nM140 S0\nG1 E7\n;LAYER:1\nG1 E9"

def cexSeg1 : Segment :=
  { layer := some 0, type := "unset", mesh := "unset", start_e_position := .int 0,
    start_z_position := .int 0, lines := [";LAYER:0", "G1 E5"] }

def cexSeg2 : Segment :=
  { layer := none, type := "unset", mesh := "unset", start_e_position := .float 5,
    start_z_position := .int 0, lines := ["M140 S0", "G1 E7"] }

def cexSeg3 : Segment :=
  { layer := some 1, type := "unset", mesh := "unset", start_e_position := .float 7,
    start_z_position := .int 0, lines := [";LAYER:1", "G1 E9"] }

/-- The two outputs of splitting `cexInput`'s segments at layer 0
without skirt duplication. -/
def cexSplitOut : List Segment × List Segment :=
  ([initSegment, cexSeg1, cexSeg2],
    [initSegment, { cexSeg1 with lines := [";LAYER:0"] }, cexSeg2,
      { cexSeg3 with lines := ["G92 E7.0", "G0 Z0", ";LAYER:1", "G1 E9"] }])

/-- A layer-0 segment ending at `E5`, preceding a kept skirt. -/
def skirtPrev : Segment :=
  { layer := some 0, type := "unset", mesh := "unset", start_e_position := .int 0,
    start_z_position := .int 0, lines := ["G1 E5"] }

/-- A `SKIRT`-typed segment on layer 1. -/
def skirtSeg : Segment :=
  { layer := some 1, type := "SKIRT", mesh := "unset", start_e_position := .float 5,
    start_z_position := .int 0, lines := ["G1 X0"] }

/-- C4 (counterexample): the claim fails in two ways on concrete inputs.
First, on `cexInput` split at layer 0, the only `layer ≤ 0` segment is
`cexSeg1`, whose resolved ending extruder position is `5` (so the
claimed pin line would be `G92 E5.0`), yet the first `layer > 0` segment
in the second output is prepended with `G92 E7.0` — the pin uses the
immediately preceding (`Unset`, shared) segment, which extruded further.
Second, with `keep_skirt` enabled, the `SKIRT`-typed segment `skirtSeg`
has layer `1 > 0` and a preceding segment but is appended to the second
output unmodified, with no synthetic lines prepended. -/
theorem splitter_continuation_cex :
    parse_gcode cexInput = .ok [initSegment, cexSeg1, cexSeg2, cexSeg3] ∧
    split_segments 0 false [initSegment, cexSeg1, cexSeg2, cexSeg3] = .ok cexSplitOut ∧
    last_e_position cexSeg1 = .ok (.float 5) ∧
    ("G92 E" ++ pyNumRepr (.float 5) : String) = "G92 E5.0" ∧
    (cexSplitOut.2.get ⟨3, by decide⟩).lines.head? = some "G92 E7.0" ∧
    ("G92 E7.0" : String) ≠ "G92 E5.0" ∧
    split_segments 0 true [skirtPrev, skirtSeg]
      = .ok ([skirtPrev, skirtSeg], [{ skirtPrev with lines := [] }, skirtSeg]) ∧
    skirtSeg.layer = some 1 ∧ (0 : ℤ) < 1 := by
  refine ⟨?_, ?_, ?_, ?_, ?_, ?_, ?_, ?_, ?_⟩
  · with_unfolding_all rfl
  · with_unfolding_all rfl
  · with_unfolding_all rfl
  · with_unfolding_all rfl
  · with_unfolding_all rfl
  · decide
  · with_unfolding_all rfl
  · rfl
  · decide

/-- C4 witness: the amended theorem applied to `cexInput`'s segments at
`i = 2`. -/
theorem splitter_continuation_pin_witness :
    ∃ ev zv, last_e_position cexSeg2 = .ok ev ∧ last_z_position cexSeg2 = .ok zv ∧
      ({ cexSeg3 with
          lines := ("G92 E" ++ pyNumRepr ev) :: ("G0 Z" ++ pyNumRepr zv)
            :: cexSeg3.lines } : Segment) ∈ cexSplitOut.2 :=
  splitter_continuation_pin 0 false [initSegment, cexSeg1, cexSeg2, cexSeg3] cexSplitOut
    (by with_unfolding_all rfl) 2 (by decide) 1 rfl (by decide) (by simp)

/-- C5 witness: the theorem applied to `cexInput`'s segments and the
layer-0 segment `cexSeg1`. -/
theorem splitter_lower_copies_witness :
    cexSeg1 ∈ cexSplitOut.1 ∧ ∃ cl, control_lines cexSeg1 = .ok cl ∧
      cl = cexSeg1.lines.filter (fun l => opInCtrlMeta (opcodeOf l)) ∧
      ({ cexSeg1 with lines := cl } : Segment) ∈ cexSplitOut.2 :=
  splitter_lower_copies 0 false [initSegment, cexSeg1, cexSeg2, cexSeg3] cexSplitOut
    (by with_unfolding_all rfl) cexSeg1 (by simp) 0 rfl (by decide) (by simp)

/-- C6 witness: the theorem applied to `cexInput`'s segments and the
`Unset`-layer segment `cexSeg2`. -/
theorem splitter_shared_segments_witness :
    (cexSeg2.layer = none → cexSeg2 ∈ cexSplitOut.1 ∧ cexSeg2 ∈ cexSplitOut.2) ∧
    (false = true → cexSeg2.type = "SKIRT" → cexSeg2 ∈ cexSplitOut.1 ∧ cexSeg2 ∈ cexSplitOut.2) ∧
    ∃ ls, ({ cexSeg2 with lines := ls } : Segment) ∈ cexSplitOut.1 ∨
      ({ cexSeg2 with lines := ls } : Segment) ∈ cexSplitOut.2 :=
  splitter_shared_segments 0 false [initSegment, cexSeg1, cexSeg2, cexSeg3] cexSplitOut
    (by with_unfolding_all rfl) cexSeg2 (by simp)

/-! ## Helper lemmas: parser state invariants -/

/-- The segment list a parser state denotes (`segments` in the source,
oldest first). -/
def stSegs (st : ParseState) : List Segment :=
  st.finishedRev.reverse ++ [st.current]

/-- State continuity between two adjacent segments: the later segment's
start positions are the resolved ending positions of the earlier one. -/
def SegStep (a b : Segment) : Prop :=
  last_e_position a = .ok b.start_e_position ∧ last_z_position a = .ok b.start_z_position

theorem segsLines_append : ∀ xs ys : List Segment,
    segsLines (xs ++ ys) = segsLines xs ++ segsLines ys
  | [], _ => rfl
  | x :: xs, ys => by
    rw [List.cons_append]
    show x.lines ++ segsLines (xs ++ ys) = (x.lines ++ segsLines xs) ++ segsLines ys
    rw [segsLines_append xs ys, List.append_assoc]

theorem segsLines_single (s : Segment) : segsLines [s] = s.lines := by
  simp [segsLines]

/-- The fresh segment `open_new_segment` constructs, before the
triggering line is appended. -/
def openedSegment (L : Option ℤ) (T M : String) (P EP : PositioningType)
    (ev zv : PyNum) (l : String) : Segment :=
  { layer := L, type := T, mesh := M, positioning_type := P, extruder_positioning_type := EP,
    start_e_position := ev, start_z_position := zv, lines := [l] }

/-- Shape of a successful `stepOpen`. -/
theorem stepOpen_shape {st0 : ParseState} {l : String} {st' : ParseState}
    (h : stepOpen st0 l = .ok st') :
    ∃ ev zv, last_e_position st0.current = .ok ev ∧ last_z_position st0.current = .ok zv ∧
      st'.finishedRev = st0.current :: st0.finishedRev ∧
      st'.current = openedSegment st0.layer st0.segment_type st0.segment_mesh
        st0.positioning_type st0.extruder_positioning_type ev zv l := by
  unfold stepOpen openNewSegment at h
  cases he : last_e_position st0.current with
  | error e => rw [he] at h; cases h
  | ok ev =>
    rw [he] at h
    cases hz : last_z_position st0.current with
    | error e => rw [hz] at h; cases h
    | ok zv =>
      rw [hz] at h
      cases h
      exact ⟨ev, zv, rfl, rfl, rfl, rfl⟩

/-- A successful parser step either plainly appends the line to the open
segment, or closes it and opens a new segment whose start positions are
the resolved ending positions of the closed one and whose only line is
the triggering line. -/
theorem parseStep_shape {i : ℕ} {st : ParseState} {l : String} {st' : ParseState}
    (h : parseStep i st l = .ok st') :
    st' = appendLine st l ∨
    ∃ ev zv L T M P EP, last_e_position st.current = .ok ev ∧
      last_z_position st.current = .ok zv ∧
      st'.finishedRev = st.current :: st.finishedRev ∧
      st'.current = openedSegment L T M P EP ev zv l := by
  unfold parseStep at h
  repeat' split at h
  all_goals first
    | (cases h; exact Or.inl rfl)
    | (cases h)
    | (rcases stepOpen_shape h with ⟨ev, zv, he, hz, hf, hc⟩
       exact Or.inr ⟨ev, zv, _, _, _, _, _, he, hz, hf, hc⟩)

/-- Each successful step appends exactly the processed line to the
flattened line stream. -/
theorem parseStep_lines {i : ℕ} {st : ParseState} {l : String} {st' : ParseState}
    (h : parseStep i st l = .ok st') :
    segsLines (stSegs st') = segsLines (stSegs st) ++ [l] := by
  rcases parseStep_shape h with rfl | ⟨ev, zv, L, T, M, P, EP, he, hz, hf, hc⟩
  · show segsLines (st.finishedRev.reverse ++ [_]) = _
    rw [stSegs, segsLines_append, segsLines_append, segsLines_single, segsLines_single]
    show segsLines st.finishedRev.reverse ++ (st.current.lines ++ [l]) = _
    rw [List.append_assoc]
  · rw [stSegs, stSegs, hf, hc, List.reverse_cons]
    simp [segsLines_append, segsLines, openedSegment, List.append_assoc]

/-- Each successful step preserves the continuity chain. -/
theorem parseStep_chain {i : ℕ} {st : ParseState} {l : String} {st' : ParseState}
    (h : parseStep i st l = .ok st')
    (hch : List.Chain' SegStep (stSegs st)) : List.Chain' SegStep (stSegs st') := by
  rcases parseStep_shape h with rfl | ⟨ev, zv, L, T, M, P, EP, he, hz, hf, hc⟩
  · rw [stSegs] at hch ⊢
    show List.Chain' SegStep (st.finishedRev.reverse ++ [_])
    rw [List.chain'_append] at hch ⊢
    obtain ⟨h1, _, h3⟩ := hch
    refine ⟨h1, List.chain'_singleton _, fun x hx y hy => ?_⟩
    simp only [List.head?_cons, Option.mem_def, Option.some.injEq] at hy
    subst hy
    have hstep := h3 x hx st.current (by simp)
    exact hstep
  · rw [stSegs, hf, hc, List.reverse_cons]
    refine List.Chain'.append ?_ (List.chain'_singleton _) fun x hx y hy => ?_
    · exact hch
    · rw [List.getLast?_concat] at hx
      simp only [List.head?_cons, Option.mem_def, Option.some.injEq] at hx hy
      subst hx
      subst hy
      exact ⟨he, hz⟩

/-- Fields of the first segment in the list are stable under steps. -/
def HeadOK (st : ParseState) : Prop :=
  ∃ s0 tl, stSegs st = s0 :: tl ∧ s0.layer = none ∧ s0.type = DEFAULT_TYPE ∧
    s0.mesh = DEFAULT_MESH ∧ s0.start_e_position = .int 0 ∧ s0.start_z_position = .int 0

theorem parseStep_head {i : ℕ} {st : ParseState} {l : String} {st' : ParseState}
    (h : parseStep i st l = .ok st') (hh : HeadOK st) : HeadOK st' := by
  rcases hh with ⟨s0, tl, heq, h1, h2, h3, h4, h5⟩
  rcases parseStep_shape h with rfl | ⟨ev, zv, L, T, M, P, EP, he, hz, hf, hc⟩
  · cases hrev : st.finishedRev.reverse with
    | nil =>
      rw [stSegs, hrev, List.nil_append] at heq
      cases heq
      refine ⟨{ st.current with lines := st.current.lines ++ [l] }, [], ?_, h1, h2, h3, h4, h5⟩
      show st.finishedRev.reverse ++ [_] = _
      rw [hrev]
      rfl
    | cons a as =>
      rw [stSegs, hrev] at heq
      rw [List.cons_append] at heq
      injection heq with h6 h7
      subst h6
      subst h7
      refine ⟨a, as ++ [{ st.current with lines := st.current.lines ++ [l] }], ?_, h1, h2, h3,
        h4, h5⟩
      show st.finishedRev.reverse ++ [_] = _
      rw [hrev]
      rfl
  · refine ⟨s0, tl ++ [st'.current], ?_, h1, h2, h3, h4, h5⟩
    have hsplit : stSegs st' = stSegs st ++ [st'.current] := by
      rw [stSegs, stSegs, hf, List.reverse_cons]
    rw [hsplit, heq]
    rfl

/-- The loop invariant of `parse_gcode`: the flattened lines are exactly
the processed lines, continuity holds between adjacent segments, and the
head segment keeps its initial fields. -/
theorem parseRun_inv : ∀ {ls : List String} {i : ℕ} {st st' : ParseState},
    parseRun i st ls = .ok st' →
    segsLines (stSegs st') = segsLines (stSegs st) ++ ls ∧
    (List.Chain' SegStep (stSegs st) → List.Chain' SegStep (stSegs st')) ∧
    (HeadOK st → HeadOK st')
  | [], _, st, st', h => by
    cases h
    exact ⟨by simp, id, id⟩
  | l :: ls, i, st, st', h => by
    unfold parseRun at h
    cases hs : parseStep i st l with
    | error e => rw [hs] at h; cases h
    | ok st2 =>
      rw [hs] at h
      obtain ⟨ih1, ih2, ih3⟩ := parseRun_inv h
      refine ⟨?_, fun hc => ih2 (parseStep_chain hs hc), fun hh => ih3 (parseStep_head hs hh)⟩
      rw [ih1, parseStep_lines hs, List.append_assoc]
      rfl

/-! ## Claim C1 -/

/-- C1 (counterexample): the round trip is not the identity on every
input text.  On the input `"\n"` the parse succeeds but `to_gcode`
returns `""`: `splitlines` drops the trailing line terminator, so the
serialized output differs from the input. -/
theorem roundtrip_cex :
    parse_gcode "\n" = .ok [{ initSegment with lines := [""] }] ∧
    to_gcode [{ initSegment with lines := [""] }] = "" ∧ ("" : String) ≠ "\n" :=
  ⟨by with_unfolding_all rfl, by with_unfolding_all rfl, by decide⟩

/-- C1 (amended claim, proved): for every input on which `parse_gcode`
succeeds, concatenating the lines of every segment in order and joining
them with newlines (`to_gcode`) reproduces the newline-join of the
input's `splitlines`; in particular it reproduces the input exactly
whenever the input is itself the newline-join of its lines (single
`"\n"` separators, no trailing line terminator). -/
theorem roundtrip_join_of_splitlines (g : String) (segs : List Segment)
    (h : parse_gcode g = .ok segs) :
    to_gcode segs = String.intercalate "\n" (pySplitlines g) ∧
    (g = String.intercalate "\n" (pySplitlines g) → to_gcode segs = g) := by
  unfold parse_gcode at h
  cases hr : parseRun 0 initState (pySplitlines g) with
  | error e => rw [hr] at h; cases h
  | ok st =>
    rw [hr] at h
    cases h
    have h1 := (parseRun_inv hr).1
    have hmain : to_gcode (st.finishedRev.reverse ++ [st.current])
        = String.intercalate "\n" (pySplitlines g) := by
      show String.intercalate "\n" (segsLines (stSegs st)) = _
      rw [h1]
      rfl
    exact ⟨hmain, fun hg => hmain.trans hg.symm⟩

/-- C1 witness: the amended theorem applied to a concrete two-line
input. -/
theorem roundtrip_join_of_splitlines_witness :
    to_gcode [initSegment, cexSeg1] = String.intercalate "\n" (pySplitlines ";LAYER:0\nG1 E5") ∧
    (";LAYER:0\nG1 E5" = String.intercalate "\n" (pySplitlines ";LAYER:0\nG1 E5") →
      to_gcode [initSegment, cexSeg1] = ";LAYER:0\nG1 E5") :=
  roundtrip_join_of_splitlines ";LAYER:0\nG1 E5" [initSegment, cexSeg1]
    (by with_unfolding_all rfl)

/-! ## Claim C2 -/

/-- C2 (confirmed): in the segment list returned by `parse_gcode`, every
segment after the first starts at exactly the resolved ending extruder
and height positions of the immediately preceding segment. -/
theorem parse_continuity (g : String) (segs : List Segment) (h : parse_gcode g = .ok segs)
    (i : ℕ) (hi : i + 1 < segs.length) :
    last_e_position (segs.get ⟨i, by omega⟩) = .ok ((segs.get ⟨i + 1, hi⟩).start_e_position) ∧
    last_z_position (segs.get ⟨i, by omega⟩) = .ok ((segs.get ⟨i + 1, hi⟩).start_z_position) := by
  unfold parse_gcode at h
  cases hr : parseRun 0 initState (pySplitlines g) with
  | error e => rw [hr] at h; cases h
  | ok st =>
    rw [hr] at h
    cases h
    have hch : List.Chain' SegStep (stSegs st) :=
      (parseRun_inv hr).2.1 (List.chain'_singleton _)
    have hi2 : i < (stSegs st).length - 1 := by
      have : (stSegs st).length = (st.finishedRev.reverse ++ [st.current]).length := rfl
      omega
    exact List.chain'_iff_get.mp hch i hi2

/-- C2 witness: the theorem applied to a concrete input at `i = 0`. -/
theorem parse_continuity_witness :
    last_e_position initSegment = .ok cexSeg1.start_e_position ∧
    last_z_position initSegment = .ok cexSeg1.start_z_position :=
  parse_continuity ";LAYER:0\nG1 E5" [initSegment, cexSeg1] (by with_unfolding_all rfl)
    0 (by decide)

/-! ## Claim C10 -/

/-- C10 (confirmed): whenever `parse_gcode` returns, the segment list is
non-empty and its first segment has `Unset` layer, the default type and
mesh, and start extruder and height positions both equal to the integer
`0` — the machine state is assumed to start at absolute zero. -/
theorem parse_initial_segment (g : String) (segs : List Segment)
    (h : parse_gcode g = .ok segs) :
    ∃ s0 tl, segs = s0 :: tl ∧ s0.layer = none ∧ s0.type = DEFAULT_TYPE ∧
      s0.mesh = DEFAULT_MESH ∧ s0.start_e_position = .int 0 ∧
      s0.start_z_position = .int 0 := by
  unfold parse_gcode at h
  cases hr : parseRun 0 initState (pySplitlines g) with
  | error e => rw [hr] at h; cases h
  | ok st =>
    rw [hr] at h
    cases h
    exact (parseRun_inv hr).2.2 ⟨initSegment, [], rfl, rfl, rfl, rfl, rfl, rfl⟩

/-- C10 witness: the theorem applied to the empty input. -/
theorem parse_initial_segment_witness :
    ∃ s0 tl, ([initSegment] : List Segment) = s0 :: tl ∧ s0.layer = none ∧
      s0.type = DEFAULT_TYPE ∧ s0.mesh = DEFAULT_MESH ∧ s0.start_e_position = .int 0 ∧
      s0.start_z_position = .int 0 :=
  parse_initial_segment "" [initSegment] rfl

/-! ## Claim C3 -/

/-- First `E`-prefixed argument value of a line, shared by the
claim-side resolver definitions (same tokenizer as the code). -/
def firstEValue (line : String) : Option ℚ :=
  match ((pySplit line).drop 1).find? (fun a => strStartsWith a "E") with
  | some tk => parseFloat (strDrop tk 1)
  | none => none

/-- Whether a line's raw first token is a linear-move opcode. -/
def isLinearMove (line : String) : Bool :=
  match pySplit line with
  | t :: _ => t = "G0" || t = "G1"
  | [] => false

/-- Mode combination of a resolved extruder argument, as in the source:
relative extruder mode, or unset extruder mode with relative general
mode, adds to the start position; otherwise the value is absolute. -/
def eCombine (s : Segment) (v : ℚ) : PyNum :=
  if s.extruder_positioning_type = .rel then pyAddFloat s.start_e_position v
  else if s.extruder_positioning_type = .unset ∧ s.positioning_type = .rel then
    pyAddFloat s.start_e_position v
  else .float v

/-- The extruder resolver exactly as claim C3 states it (refinement
comparison definition, written from the claim's words): scan the lines
in reverse for the first linear-move line carrying an `E` argument and
combine that argument by mode; if none exists, `start_e_position`. -/
def claimResolveE (s : Segment) : PyNum :=
  match s.lines.reverse.find? (fun l => isLinearMove l && (firstEValue l).isSome) with
  | some l => eCombine s ((firstEValue l).getD 0)
  | none => s.start_e_position

/-- The scan the code actually performs over a reversed line list:
linear-move lines whose first `E` argument is *nonzero* (zero is falsy
under the walrus test and is skipped). -/
def amendedScan (s : Segment) (ls : List String) : PyNum :=
  match ls.find? (fun l => isLinearMove l && ((firstEValue l).getD 0 != 0)) with
  | some l => eCombine s ((firstEValue l).getD 0)
  | none => s.start_e_position

/-- Claim C3 amended to the code's behavior: zero-valued (or absent)
first `E` arguments are skipped by the reverse scan. -/
def amendedResolveE (s : Segment) : PyNum :=
  amendedScan s s.lines.reverse

/-- A line on which the extruder resolver cannot raise: not
whitespace-only, and if it is a linear move its first `E` argument (when
present) parses as a float. -/
def lineEOK (l : String) : Bool :=
  (l == "" || !(pySplit l).isEmpty) &&
  (!(isLinearMove l) ||
    (match ((pySplit l).drop 1).find? (fun a => strStartsWith a "E") with
     | some tk => (parseFloat (strDrop tk 1)).isSome
     | none => true))

theorem amendedScan_cons_pos {s : Segment} {l : String} {rest : List String}
    (h : (isLinearMove l && ((firstEValue l).getD 0 != 0)) = true) :
    amendedScan s (l :: rest) = eCombine s ((firstEValue l).getD 0) := by
  unfold amendedScan
  rw [List.find?_cons, h]

theorem amendedScan_cons_neg {s : Segment} {l : String} {rest : List String}
    (h : (isLinearMove l && ((firstEValue l).getD 0 != 0)) = false) :
    amendedScan s (l :: rest) = amendedScan s rest := by
  unfold amendedScan
  rw [List.find?_cons, h]

/-- The mode if-chain of the source equals `eCombine`. -/
theorem eCombine_ok (s : Segment) (v : ℚ) :
    (if s.extruder_positioning_type = .rel then
      Except.ok (ε := PyErr) (pyAddFloat s.start_e_position v)
    else if s.extruder_positioning_type = .unset ∧ s.positioning_type = .rel then
      .ok (pyAddFloat s.start_e_position v)
    else .ok (.float v)) = .ok (eCombine s v) := by
  unfold eCombine
  by_cases h1 : s.extruder_positioning_type = .rel
  · rw [if_pos h1, if_pos h1]
  · rw [if_neg h1, if_neg h1]
    by_cases h2 : s.extruder_positioning_type = .unset ∧ s.positioning_type = .rel
    · rw [if_pos h2, if_pos h2]
    · rw [if_neg h2, if_neg h2]

/-- On crash-free lines the code's reverse extruder scan computes
`amendedScan`. -/
theorem lastEGo_eq_amended (s : Segment) : ∀ ls : List String,
    (∀ l ∈ ls, lineEOK l = true) → lastEGo s ls = .ok (amendedScan s ls)
  | [], _ => rfl
  | l :: rest, h => by
    have h0 := h l (List.mem_cons_self l rest)
    have hrest : ∀ x ∈ rest, lineEOK x = true := fun x hx => h x (List.mem_cons_of_mem _ hx)
    have ih := lastEGo_eq_amended s rest hrest
    by_cases hb : l = ""
    · subst hb
      rw [show lastEGo s ("" :: rest) = lastEGo s rest from rfl, ih,
        amendedScan_cons_neg (by decide)]
    · cases hsplit : pySplit l with
      | nil => simp [lineEOK, hsplit, hb] at h0
      | cons t args =>
        have hpredlin : isLinearMove l = (t = "G0" || t = "G1") := by
          rw [isLinearMove, hsplit]
        by_cases ht : t = "G0" ∨ t = "G1"
        · have htb : (t = "G0" || t = "G1" : Bool) = true := by
            rcases ht with ht | ht <;> simp [ht]
          cases hfind : args.find? (fun a => strStartsWith a "E") with
          | none =>
            have hfv : firstEValue l = none := by
              simp [firstEValue, hsplit, hfind]
            have hstep : lastEGo s (l :: rest) = lastEGo s rest := by
              conv_lhs => unfold lastEGo
              rw [if_neg hb, hsplit]
              simp only [htb]
              rw [if_pos (by exact ht), hfind]
            rw [hstep, ih, amendedScan_cons_neg (by rw [hfv]; simp)]
          | some tk =>
            have hfv : firstEValue l = parseFloat (strDrop tk 1) := by
              simp [firstEValue, hsplit, hfind]
            cases hpf : parseFloat (strDrop tk 1) with
            | none =>
              exfalso
              have h0b := h0
              rw [lineEOK] at h0b
              simp only [hsplit, hpredlin, htb, List.drop_succ_cons, List.drop_zero] at h0b
              rw [hfind] at h0b
              simp [hpf] at h0b
            | some v =>
              have hstep : lastEGo s (l :: rest) =
                  (if v = 0 then lastEGo s rest
                   else if s.extruder_positioning_type = .rel then
                     .ok (pyAddFloat s.start_e_position v)
                   else if s.extruder_positioning_type = .unset ∧ s.positioning_type = .rel
                     then .ok (pyAddFloat s.start_e_position v)
                   else .ok (.float v)) := by
                conv_lhs => unfold lastEGo
                rw [if_neg hb, hsplit]
                simp only [htb]
                rw [if_pos (by exact ht), hfind]
                show (match parseFloat (strDrop tk 1) with
                  | none => Except.error PyErr.valueError
                  | some v =>
                    if v = 0 then lastEGo s rest
                    else if s.extruder_positioning_type = PositioningType.rel then
                      Except.ok (pyAddFloat s.start_e_position v)
                    else if s.extruder_positioning_type = PositioningType.unset ∧
                        s.positioning_type = PositioningType.rel then
                      Except.ok (pyAddFloat s.start_e_position v)
                    else Except.ok (PyNum.float v)) = _
                rw [hpf]
              by_cases hv : v = 0
              · subst hv
                rw [hstep, if_pos rfl, ih,
                  amendedScan_cons_neg (by rw [hfv, hpf]; simp)]
              · rw [hstep, if_neg hv,
                  amendedScan_cons_pos (by rw [hfv, hpf, hpredlin, htb]; simpa using hv),
                  hfv, hpf]
                simp only [Option.getD_some]
                exact eCombine_ok s v
        · have htb : (t = "G0" || t = "G1" : Bool) = false := by
            simp only [Bool.or_eq_false_iff, decide_eq_false_iff_not]
            exact ⟨fun h1 => ht (Or.inl h1), fun h1 => ht (Or.inr h1)⟩
          have hstep : lastEGo s (l :: rest) = lastEGo s rest := by
            conv_lhs => unfold lastEGo
            rw [if_neg hb, hsplit]
            simp only [htb]
            rw [if_neg (by exact ht)]
          rw [hstep, ih, amendedScan_cons_neg (by rw [hpredlin, htb]; rfl)]

/-- A segment whose last linear move carries `E0`: the claim's scan
stops there, the code's walrus test skips it. -/
def zeroESeg : Segment :=
  { layer := some 0, type := "unset", mesh := "unset", start_e_position := .int 1,
    start_z_position := .int 0, lines := ["G1 E5", "G1 E0"] }

/-- C3 (counterexample): on `zeroESeg` (absolute mode), the first
linear-move line in reverse order carrying an `E` argument is `G1 E0`,
so the claimed resolution is `0`; but the code treats the zero value as
falsy (`if e_pos := ...`), skips the line, and resolves to `5`. -/
theorem resolver_reverse_scan_cex :
    last_e_position zeroESeg = .ok (.float 5) ∧
    claimResolveE zeroESeg = .float 0 ∧
    PyNum.float 5 ≠ PyNum.float 0 := by
  refine ⟨by with_unfolding_all rfl, by with_unfolding_all rfl, fun hc => ?_⟩
  injection hc with hc2
  norm_num at hc2

/-- C3 (amended claim, proved): for every segment whose lines are
crash-free for the extruder resolver, `last_e_position` equals the value
obtained by scanning the lines in reverse for the first linear-move line
whose first `E` argument is present and *nonzero*: in relative extruder
mode (or unset extruder mode with relative general mode) the result adds
that value to `start_e_position`, otherwise the value is the absolute
ending position; lines with no `E` argument or with a zero `E` value are
skipped, and if no qualifying line exists the result is
`start_e_position` unchanged. -/
theorem resolver_reverse_scan_amended (s : Segment)
    (h : ∀ l ∈ s.lines, lineEOK l = true) :
    last_e_position s = .ok (amendedResolveE s) :=
  lastEGo_eq_amended s s.lines.reverse (fun l hl => h l (List.mem_reverse.mp hl))

/-- C3 witness: the amended theorem applied to `zeroESeg`. -/
theorem resolver_reverse_scan_witness :
    last_e_position zeroESeg = .ok (amendedResolveE zeroESeg) :=
  resolver_reverse_scan_amended zeroESeg (by decide)

/-! ## Claim C9 -/

/-- `pySplitGo` with a nonempty accumulator emits that accumulator as
the start of its first token. -/
theorem pySplitGo_acc_head : ∀ (cs acc : List Char), acc ≠ [] →
    ∃ tl rest, pySplitGo cs acc = String.mk (acc.reverse ++ tl) :: rest
  | [], acc, h => ⟨[], [], by
      unfold pySplitGo
      rw [if_neg (by simpa using h)]
      simp⟩
  | c :: cs, acc, h => by
    unfold pySplitGo
    by_cases hsp : isPySpace c = true
    · rw [if_pos hsp, if_neg (by simpa using h)]
      exact ⟨[], pySplitGo cs [], by simp⟩
    · rw [if_neg hsp]
      obtain ⟨tl, rest, hr⟩ := pySplitGo_acc_head cs (c :: acc) (by simp)
      refine ⟨c :: tl, rest, ?_⟩
      rw [hr]
      congr 2
      rw [List.reverse_cons, List.append_assoc]
      rfl

/-- A line starting with a non-whitespace character has a first token
starting with that character. -/
theorem pySplit_of_head {line : String} {c : Char} {cs : List Char}
    (hl : line.toList = c :: cs) (hc : isPySpace c = false) :
    ∃ tl rest, pySplit line = String.mk (c :: tl) :: rest := by
  unfold pySplit
  rw [hl]
  unfold pySplitGo
  rw [if_neg (by rw [hc]; exact Bool.false_ne_true)]
  obtain ⟨tl, rest, hr⟩ := pySplitGo_acc_head cs [c] (by simp)
  exact ⟨tl, rest, by rw [hr]; rfl⟩

/-- A comment line's opcode is `";"`. -/
theorem get_opcode_semicolon {line : String} {cs : List Char}
    (hl : line.toList = (';' : Char) :: cs) : get_opcode line = .ok (some ";") := by
  have hne : line ≠ "" := by
    intro he
    rw [he, show ("" : String).toList = [] from rfl] at hl
    cases hl
  obtain ⟨tl, rest, hsp⟩ := pySplit_of_head hl (by decide)
  unfold get_opcode
  rw [if_neg hne, hsp]
  have hpre : strStartsWith (String.mk ((';' : Char) :: tl)) ";" = true := by
    simp [strStartsWith, List.isPrefixOf]
  show Except.ok (some (if strStartsWith (String.mk ((';' : Char) :: tl)) ";" = true
    then ";" else String.mk ((';' : Char) :: tl))) = .ok (some ";")
  rw [if_pos hpre]

/-- A comment line does not carry the `M140 S0` prefix. -/
theorem not_m140_of_semicolon {line : String} {cs : List Char}
    (hl : line.toList = (';' : Char) :: cs) : strStartsWith line "M140 S0" = false := by
  unfold strStartsWith
  rw [hl]
  rfl

/-- C9 (confirmed): a line that resembles a marker comment (it starts
with `";"`) but matches none of the exact marker patterns is not an
error and triggers no state transition: the step classifies it as an
ordinary comment and appends it verbatim to the currently open
segment, leaving every other component of the parser state unchanged. -/
theorem malformed_marker_passthrough (i : ℕ) (st : ParseState) (line : String)
    (h1 : strStartsWith line ";" = true) (h2 : layer_match line = none)
    (h3 : type_match line = none) (h4 : mesh_match line = none) :
    parseStep i st line = .ok (appendLine st line) := by
  have hmk : ∃ cs, line.toList = (';' : Char) :: cs := by
    unfold strStartsWith at h1
    rw [show (";" : String).toList = [(';' : Char)] from rfl] at h1
    cases hl : line.toList with
    | nil => rw [hl] at h1; cases h1
    | cons c cs =>
      rw [hl] at h1
      simp only [List.isPrefixOf, Bool.and_eq_true, beq_iff_eq] at h1
      exact ⟨cs, by rw [h1.1]⟩
  obtain ⟨cs, hl⟩ := hmk
  have hne : line ≠ "" := by
    intro he
    rw [he, show ("" : String).toList = [] from rfl] at hl
    cases hl
  have hop := get_opcode_semicolon hl
  have h140 := not_m140_of_semicolon hl
  unfold parseStep
  rw [if_neg hne, h2, h3, h4, hop]
  show (if some ";" = some "M82" then _
    else if some ";" = some "M83" then _
    else if some ";" = some "G90" then _
    else if some ";" = some "G91" then _
    else if strStartsWith line "M140 S0" = true then _
    else if opRecognized (some ";") = true then Except.ok (appendLine st line)
    else Except.error (.unknownInst (mkUnknownMsg i line))) = .ok (appendLine st line)
  rw [if_neg (by decide), if_neg (by decide), if_neg (by decide), if_neg (by decide),
    if_neg (by rw [h140]; exact Bool.false_ne_true), if_pos (by decide)]

/-- C9 witness: the theorem applied to the malformed marker
`"; LAYER:1"` (stray space) in the initial state. -/
theorem malformed_marker_passthrough_witness :
    parseStep 0 initState "; LAYER:1" = .ok (appendLine initState "; LAYER:1") :=
  malformed_marker_passthrough 0 initState "; LAYER:1" (by decide) (by decide) (by decide)
    (by decide)

/-! ## Claim C8 -/

/-- A line that triggers closing the current segment and opening a new
one: a layer, type, or mesh marker, a positioning-mode instruction, or
the `M140 S0` shutdown prefix — regardless of whether the tracked state
value actually changes. -/
def triggerLine (line : String) : Bool :=
  (layer_match line).isSome || (type_match line).isSome || (mesh_match line).isSome ||
  (match opcodeOf line with
   | some t => t == "M82" || t == "M83" || t == "G90" || t == "G91"
   | none => false) ||
  strStartsWith line "M140 S0"

/-- Packaging of the amended C8 conclusion for an opening step. -/
theorem triggerConclusion {st st' : ParseState} {line : String}
    (hf : st'.finishedRev = st.current :: st.finishedRev)
    (hlines : st'.current.lines = [line])
    (htr : triggerLine line = true) :
    (st'.finishedRev.length = st.finishedRev.length + 1 ↔ triggerLine line = true) ∧
    (triggerLine line = true → st'.current.lines = [line]) ∧
    (triggerLine line = false → st' = appendLine st line) :=
  ⟨⟨fun _ => htr, fun _ => by rw [hf]; rfl⟩, fun _ => hlines,
    fun hfalse => absurd htr (by rw [hfalse]; exact Bool.false_ne_true)⟩

/-- Packaging of the amended C8 conclusion for a plain append step. -/
theorem appendConclusion {st : ParseState} {line : String}
    (htr : triggerLine line = false) :
    ((appendLine st line).finishedRev.length = st.finishedRev.length + 1 ↔
      triggerLine line = true) ∧
    (triggerLine line = true → (appendLine st line).current.lines = [line]) ∧
    (triggerLine line = false → appendLine st line = appendLine st line) := by
  refine ⟨⟨fun hlen => ?_, fun htrue => ?_⟩, fun htrue => ?_, fun _ => rfl⟩
  · exfalso
    have h2 : st.finishedRev.length = st.finishedRev.length + 1 := hlen
    omega
  · rw [htrue] at htr
    cases htr
  · rw [htrue] at htr
    cases htr

/-- C8 (amended claim, proved): a successful segmentation step opens a
new segment *iff* the line is a trigger line (layer, type, or mesh
marker, `M82`/`M83`/`G90`/`G91`, or an `M140 S0`-prefixed line) —
whether or not any tracked state value actually changes; the triggering
line becomes the only line of the new segment, and any other recognized
line is appended to the currently open segment with the state otherwise
unchanged. -/
theorem segmentation_trigger (i : ℕ) (st : ParseState) (line : String) (st' : ParseState)
    (h : parseStep i st line = .ok st') :
    (st'.finishedRev.length = st.finishedRev.length + 1 ↔ triggerLine line = true) ∧
    (triggerLine line = true → st'.current.lines = [line]) ∧
    (triggerLine line = false → st' = appendLine st line) := by
  by_cases hb : line = ""
  · subst hb
    have h2 : parseStep i st "" = .ok (appendLine st "") := rfl
    rw [h2] at h
    injection h with h3
    subst h3
    exact appendConclusion (by decide)
  · unfold parseStep at h
    rw [if_neg hb] at h
    split at h
    next n heqL =>
      obtain ⟨ev, zv, he, hz, hf, hc⟩ := stepOpen_shape h
      exact triggerConclusion hf (by rw [hc]; rfl)
        (by unfold triggerLine; rw [heqL]; rfl)
    next heqL =>
      split at h
      next tn heqT =>
        obtain ⟨ev, zv, he, hz, hf, hc⟩ := stepOpen_shape h
        exact triggerConclusion hf (by rw [hc]; rfl)
          (by unfold triggerLine; rw [heqL, heqT]; rfl)
      next heqT =>
        split at h
        next mn heqM =>
          obtain ⟨ev, zv, he, hz, hf, hc⟩ := stepOpen_shape h
          exact triggerConclusion hf (by rw [hc]; rfl)
            (by unfold triggerLine; rw [heqL, heqT, heqM]; rfl)
        next heqM =>
          split at h
          next e heqOp => cases h
          next op heqOp =>
            have hopv := get_opcode_ok heqOp
            by_cases h82 : op = some "M82"
            · rw [if_pos h82] at h
              obtain ⟨ev, zv, he, hz, hf, hc⟩ := stepOpen_shape h
              exact triggerConclusion hf (by rw [hc]; rfl)
                (by unfold triggerLine; rw [heqL, heqT, heqM, ← hopv, h82]; rfl)
            · rw [if_neg h82] at h
              by_cases h83 : op = some "M83"
              · rw [if_pos h83] at h
                obtain ⟨ev, zv, he, hz, hf, hc⟩ := stepOpen_shape h
                exact triggerConclusion hf (by rw [hc]; rfl)
                  (by unfold triggerLine; rw [heqL, heqT, heqM, ← hopv, h83]; rfl)
              · rw [if_neg h83] at h
                by_cases h90 : op = some "G90"
                · rw [if_pos h90] at h
                  obtain ⟨ev, zv, he, hz, hf, hc⟩ := stepOpen_shape h
                  exact triggerConclusion hf (by rw [hc]; rfl)
                    (by unfold triggerLine; rw [heqL, heqT, heqM, ← hopv, h90]; rfl)
                · rw [if_neg h90] at h
                  by_cases h91 : op = some "G91"
                  · rw [if_pos h91] at h
                    obtain ⟨ev, zv, he, hz, hf, hc⟩ := stepOpen_shape h
                    exact triggerConclusion hf (by rw [hc]; rfl)
                      (by unfold triggerLine; rw [heqL, heqT, heqM, ← hopv, h91]; rfl)
                  · rw [if_neg h91] at h
                    by_cases h140 : strStartsWith line "M140 S0" = true
                    · rw [if_pos h140] at h
                      obtain ⟨ev, zv, he, hz, hf, hc⟩ := stepOpen_shape h
                      exact triggerConclusion hf (by rw [hc]; rfl)
                        (by unfold triggerLine; rw [h140]; simp)
                    · rw [if_neg h140] at h
                      by_cases hrec : opRecognized op = true
                      · rw [if_pos hrec] at h
                        injection h with h3
                        subst h3
                        refine appendConclusion ?_
                        have h140f : strStartsWith line "M140 S0" = false := by
                          cases hsw : strStartsWith line "M140 S0" with
                          | false => rfl
                          | true => exact absurd hsw h140
                        unfold triggerLine
                        rw [heqL, heqT, heqM, ← hopv, h140f]
                        cases op with
                        | none => rfl
                        | some t =>
                          simp only [Option.isSome_none, Bool.false_or, Bool.or_false,
                            Bool.or_eq_false_iff, beq_eq_false_iff_ne, ne_eq]
                          exact ⟨⟨⟨fun ht => h82 (by rw [ht]), fun ht => h83 (by rw [ht])⟩,
                            fun ht => h90 (by rw [ht])⟩, fun ht => h91 (by rw [ht])⟩
                      · rw [if_neg hrec] at h
                        cases h

/-- The segment opened by the first `";TYPE:FILL"` line. -/
def typeFillSeg : Segment :=
  { layer := none, type := "FILL", mesh := "unset", start_e_position := .int 0,
    start_z_position := .int 0, lines := [";TYPE:FILL"] }

/-- The parser state after processing one `";TYPE:FILL"` line. -/
def typeFillState : ParseState :=
  { finishedRev := [initSegment]
    current := typeFillSeg
    layer := none
    positioning_type := .unset
    extruder_positioning_type := .unset
    segment_type := "FILL"
    segment_mesh := "unset" }

/-- C8 (counterexample): in the reachable state after `";TYPE:FILL"`, a
second identical `";TYPE:FILL"` line opens a new segment (the closed
list grows from 1 to 2) although none of the five tracked states
(layer, type, mesh, positioning mode, extruder positioning mode)
changes and the line is not the sequence-reset marker — refuting the
"only if one of the tracked states changes" direction of the claim. -/
theorem segmentation_trigger_cex :
    parseRun 0 initState [";TYPE:FILL"] = .ok typeFillState ∧
    typeFillState.finishedRev.length = 1 ∧
    Except.map (fun st => st.finishedRev.length) (parseStep 1 typeFillState ";TYPE:FILL")
      = .ok 2 ∧
    Except.map (fun st => (st.layer, st.segment_type, st.segment_mesh, st.positioning_type,
        st.extruder_positioning_type)) (parseStep 1 typeFillState ";TYPE:FILL")
      = .ok (typeFillState.layer, typeFillState.segment_type, typeFillState.segment_mesh,
          typeFillState.positioning_type, typeFillState.extruder_positioning_type) ∧
    strStartsWith ";TYPE:FILL" "M140 S0" = false := by
  refine ⟨?_, ?_, ?_, ?_, ?_⟩ <;> with_unfolding_all rfl

/-- The parser state after stepping `";TYPE:FILL"` a second time. -/
def typeFillState2 : ParseState :=
  { typeFillState with finishedRev := [typeFillSeg, initSegment], current := typeFillSeg }

/-- C8 witness: the amended theorem applied to the concrete repeated
`";TYPE:FILL"` step. -/
theorem segmentation_trigger_witness :
    (typeFillState2.finishedRev.length = typeFillState.finishedRev.length + 1 ↔
      triggerLine ";TYPE:FILL" = true) ∧
    (triggerLine ";TYPE:FILL" = true → typeFillState2.current.lines = [";TYPE:FILL"]) ∧
    (triggerLine ";TYPE:FILL" = false →
      typeFillState2 = appendLine typeFillState ";TYPE:FILL") :=
  segmentation_trigger 1 typeFillState ";TYPE:FILL" typeFillState2 (by with_unfolding_all rfl)

/-! ## Claim C7 -/

/-- A line on which the height resolver cannot raise: not
whitespace-only, and if its opcode is a linear move its first `Z`
argument (when present) parses as a float. -/
def lineZOK (l : String) : Bool :=
  (l == "" || !(pySplit l).isEmpty) &&
  (match opcodeOf l with
   | some t =>
     if t = "G0" ∨ t = "G1" then
       match (get_args l).find? (fun a => strStartsWith a "Z") with
       | some tk => (parseFloat (strDrop tk 1)).isSome
       | none => true
     else true
   | none => true)

/-- A line on which neither position resolver can raise. -/
def lineNoCrash (l : String) : Bool :=
  lineEOK l && lineZOK l

/-- On crash-free lines the height scan succeeds. -/
theorem lastZGo_ok (s : Segment) : ∀ ls : List String,
    (∀ l ∈ ls, lineZOK l = true) → ∃ v, lastZGo s ls = .ok v
  | [], _ => ⟨s.start_z_position, rfl⟩
  | l :: rest, h => by
    have h0 := h l (List.mem_cons_self l rest)
    have hrest : ∀ x ∈ rest, lineZOK x = true := fun x hx => h x (List.mem_cons_of_mem _ hx)
    obtain ⟨v0, ih⟩ := lastZGo_ok s rest hrest
    by_cases hb : l = ""
    · subst hb
      exact ⟨v0, by rw [show lastZGo s ("" :: rest) = lastZGo s rest from rfl]; exact ih⟩
    · cases hsplit : pySplit l with
      | nil => simp [lineZOK, hsplit, hb] at h0
      | cons t args =>
        have htok : pySplit l ≠ [] := by rw [hsplit]; exact fun hcon => List.noConfusion hcon
        have hop : get_opcode l = .ok (opcodeOf l) := get_opcode_ok_of_tok (Or.inr htok)
        have hstep : lastZGo s (l :: rest) =
            (if opcodeOf l = some "G0" ∨ opcodeOf l = some "G1" then
              match (get_args l).find? (fun a => strStartsWith a "Z") with
              | none => lastZGo s rest
              | some tk =>
                match parseFloat (strDrop tk 1) with
                | none => Except.error PyErr.valueError
                | some v =>
                  if v = 0 then lastZGo s rest
                  else if s.positioning_type = PositioningType.rel then
                    Except.ok (pyAddFloat s.start_z_position v)
                  else Except.ok (PyNum.float v)
            else lastZGo s rest) := by
          conv_lhs => unfold lastZGo
          rw [hop]
        by_cases hmov : opcodeOf l = some "G0" ∨ opcodeOf l = some "G1"
        · cases hfind : (get_args l).find? (fun a => strStartsWith a "Z") with
          | none =>
            refine ⟨v0, ?_⟩
            rw [hstep, if_pos hmov, hfind]
            exact ih
          | some tk =>
            cases hpf : parseFloat (strDrop tk 1) with
            | none =>
              exfalso
              have h0b := h0
              rw [lineZOK] at h0b
              rcases hmov with hm | hm <;>
                (rw [hm] at h0b
                 simp only [Bool.and_eq_true] at h0b
                 have h0c := h0b.2
                 rw [if_pos (by simp)] at h0c
                 rw [hfind] at h0c
                 have h0d : (parseFloat (strDrop tk 1)).isSome = true := h0c
                 rw [hpf] at h0d
                 simp at h0d)
            | some v =>
              have hstep2 : lastZGo s (l :: rest) =
                  (if v = 0 then lastZGo s rest
                   else if s.positioning_type = PositioningType.rel then
                     Except.ok (pyAddFloat s.start_z_position v)
                   else Except.ok (PyNum.float v)) := by
                rw [hstep, if_pos hmov, hfind]
                show (match parseFloat (strDrop tk 1) with
                  | none => Except.error PyErr.valueError
                  | some v =>
                    if v = 0 then lastZGo s rest
                    else if s.positioning_type = PositioningType.rel then
                      Except.ok (pyAddFloat s.start_z_position v)
                    else Except.ok (PyNum.float v)) = _
                rw [hpf]
              by_cases hv : v = 0
              · exact ⟨v0, by rw [hstep2, if_pos hv]; exact ih⟩
              · by_cases hp : s.positioning_type = PositioningType.rel
                · exact ⟨pyAddFloat s.start_z_position v, by rw [hstep2, if_neg hv, if_pos hp]⟩
                · exact ⟨.float v, by rw [hstep2, if_neg hv, if_neg hp]⟩
        · refine ⟨v0, ?_⟩
          rw [hstep, if_neg hmov]
          exact ih

/-- The fresh (empty) segment `open_new_segment` constructs. -/
def freshSegment (st : ParseState) (ev zv : PyNum) : Segment :=
  { layer := st.layer, type := st.segment_type, mesh := st.segment_mesh,
    positioning_type := st.positioning_type,
    extruder_positioning_type := st.extruder_positioning_type,
    start_e_position := ev, start_z_position := zv, lines := [] }

/-- The parser state after a successful `open_new_segment`. -/
def openedState (st : ParseState) (ev zv : PyNum) : ParseState :=
  { st with finishedRev := st.current :: st.finishedRev, current := freshSegment st ev zv }

/-- `open_new_segment` succeeds when the open segment's lines are
crash-free. -/
theorem openNewSegment_ok {st : ParseState}
    (h : ∀ l ∈ st.current.lines, lineNoCrash l = true) :
    ∃ ev zv, openNewSegment st = .ok (openedState st ev zv) := by
  have heok : ∀ l ∈ st.current.lines.reverse, lineEOK l = true := fun l hl =>
    (Bool.and_eq_true _ _ |>.mp (h l (List.mem_reverse.mp hl))).1
  have hzok : ∀ l ∈ st.current.lines.reverse, lineZOK l = true := fun l hl =>
    (Bool.and_eq_true _ _ |>.mp (h l (List.mem_reverse.mp hl))).2
  have he : last_e_position st.current
      = .ok (amendedScan st.current st.current.lines.reverse) :=
    lastEGo_eq_amended st.current st.current.lines.reverse heok
  obtain ⟨zv, hz⟩ := lastZGo_ok st.current st.current.lines.reverse hzok
  have hz2 : last_z_position st.current = .ok zv := hz
  refine ⟨amendedScan st.current st.current.lines.reverse, zv, ?_⟩
  unfold openNewSegment
  rw [he, hz2]
  rfl

/-- A line handled by some branch of the segmentation cascade (blank,
marker, mode switch, shutdown prefix, or recognized opcode). -/
def lineHandled (l : String) : Bool :=
  l == "" || (layer_match l).isSome || (type_match l).isSome || (mesh_match l).isSome ||
  (match opcodeOf l with
   | some t => t == "M82" || t == "M83" || t == "G90" || t == "G91" ||
       MOV_OPCODES.contains t || CONTROL_OPCODES.contains t || META_OPCODES.contains t
   | none => false) ||
  strStartsWith l "M140 S0"

/-- All lines of the currently open segment are crash-free. -/
def StateOK (st : ParseState) : Prop :=
  ∀ l ∈ st.current.lines, lineNoCrash l = true

theorem StateOK_append {st : ParseState} {l : String} (hS : StateOK st)
    (hC : lineNoCrash l = true) : StateOK (appendLine st l) := by
  intro x hx
  rcases List.mem_append.mp hx with hx | hx
  · exact hS x hx
  · rw [List.mem_singleton.mp hx]
    exact hC

theorem StateOK_open_append {st : ParseState} {ev zv : PyNum} {l : String}
    (hC : lineNoCrash l = true) : StateOK (appendLine (openedState st ev zv) l) := by
  intro x hx
  have hx2 : x ∈ ([l] : List String) := hx
  rw [List.mem_singleton.mp hx2]
  exact hC

theorem stepOpen_ok {st0 : ParseState} {l : String}
    (h : ∀ x ∈ st0.current.lines, lineNoCrash x = true) :
    ∃ ev zv, stepOpen st0 l = .ok (appendLine (openedState st0 ev zv) l) := by
  obtain ⟨ev, zv, ho⟩ := openNewSegment_ok h
  exact ⟨ev, zv, by unfold stepOpen; rw [ho]⟩

theorem tok_of_noCrash {l : String} (hb : l ≠ "") (hC : lineNoCrash l = true) :
    pySplit l ≠ [] := by
  have h1 := ((Bool.and_eq_true _ _).mp hC).1
  have h2 := ((Bool.and_eq_true _ _).mp h1).1
  rcases Bool.or_eq_true_iff.mp h2 with h3 | h3
  · exact absurd (beq_iff_eq.mp h3) hb
  · intro hcon
    rw [hcon] at h3
    simp at h3

theorem opt_none_of_isSome_false {α : Type} {o : Option α} (h : o.isSome = false) :
    o = none := by
  cases o with
  | none => rfl
  | some x => simp at h

theorem opcodeOf_none_tok {l : String} (h : opcodeOf l = none) : pySplit l = [] := by
  unfold opcodeOf at h
  cases hs : pySplit l with
  | nil => rfl
  | cons a b => rw [hs] at h; cases h

/-- The opcode cascade of `parseStep`, once the blank and marker
branches have been ruled out. -/
theorem parseStep_op_chain (i : ℕ) (st : ParseState) (l : String) (hb : l ≠ "")
    (heqL : layer_match l = none) (heqT : type_match l = none) (heqM : mesh_match l = none)
    (hop : get_opcode l = .ok (opcodeOf l)) :
    parseStep i st l =
      (if opcodeOf l = some "M82" then stepOpen { st with extruder_positioning_type := PositioningType.abs } l
      else if opcodeOf l = some "M83" then stepOpen { st with extruder_positioning_type := PositioningType.rel } l
      else if opcodeOf l = some "G90" then stepOpen { st with positioning_type := PositioningType.abs, extruder_positioning_type := PositioningType.unset } l
      else if opcodeOf l = some "G91" then stepOpen { st with positioning_type := PositioningType.rel, extruder_positioning_type := PositioningType.unset } l
      else if strStartsWith l "M140 S0" = true then stepOpen { st with layer := none } l
      else if opRecognized (opcodeOf l) = true then Except.ok (appendLine st l)
      else Except.error (.unknownInst (mkUnknownMsg i l))) := by
  unfold parseStep
  rw [if_neg hb, heqL, heqT, heqM, hop]

/-- A handled, crash-free line always steps successfully, preserving
crash-freedom of the open segment. -/
theorem parseStep_ok_of_handled {i : ℕ} {st : ParseState} {l : String}
    (hH : lineHandled l = true) (hC : lineNoCrash l = true) (hS : StateOK st) :
    ∃ st2, parseStep i st l = .ok st2 ∧ StateOK st2 := by
  by_cases hb : l = ""
  · subst hb
    exact ⟨appendLine st "", rfl, StateOK_append hS hC⟩
  cases heqL : layer_match l with
  | some n =>
    have hS2 : StateOK ({ st with layer := some (n : ℤ), segment_type := DEFAULT_TYPE } : ParseState) := hS
    obtain ⟨ev, zv, ho⟩ := stepOpen_ok hS2
    refine ⟨appendLine (openedState { st with layer := some (n : ℤ), segment_type := DEFAULT_TYPE } ev zv) l, ?_, StateOK_open_append hC⟩
    unfold parseStep
    rw [if_neg hb, heqL]
    exact ho
  | none =>
  cases heqT : type_match l with
  | some tn =>
    have hS2 : StateOK ({ st with segment_type := tn } : ParseState) := hS
    obtain ⟨ev, zv, ho⟩ := stepOpen_ok hS2
    refine ⟨appendLine (openedState { st with segment_type := tn } ev zv) l, ?_, StateOK_open_append hC⟩
    unfold parseStep
    rw [if_neg hb, heqL, heqT]
    exact ho
  | none =>
  cases heqM : mesh_match l with
  | some mn =>
    have hS2 : StateOK ({ st with segment_mesh := mn, segment_type := "unset" } : ParseState) := hS
    obtain ⟨ev, zv, ho⟩ := stepOpen_ok hS2
    refine ⟨appendLine (openedState { st with segment_mesh := mn, segment_type := "unset" } ev zv) l, ?_, StateOK_open_append hC⟩
    unfold parseStep
    rw [if_neg hb, heqL, heqT, heqM]
    exact ho
  | none =>
    have htok := tok_of_noCrash hb hC
    have hop := get_opcode_ok_of_tok (Or.inr htok)
    have hchain := parseStep_op_chain i st l hb heqL heqT heqM hop
    by_cases h82 : opcodeOf l = some "M82"
    · have hS2 : StateOK ({ st with extruder_positioning_type := PositioningType.abs } : ParseState) := hS
      obtain ⟨ev, zv, ho⟩ := stepOpen_ok hS2
      refine ⟨appendLine (openedState { st with extruder_positioning_type := PositioningType.abs } ev zv) l, ?_, StateOK_open_append hC⟩
      rw [hchain, if_pos h82]
      exact ho
    · by_cases h83 : opcodeOf l = some "M83"
      · have hS2 : StateOK ({ st with extruder_positioning_type := PositioningType.rel } : ParseState) := hS
        obtain ⟨ev, zv, ho⟩ := stepOpen_ok hS2
        refine ⟨appendLine (openedState { st with extruder_positioning_type := PositioningType.rel } ev zv) l, ?_, StateOK_open_append hC⟩
        rw [hchain, if_neg h82, if_pos h83]
        exact ho
      · by_cases h90 : opcodeOf l = some "G90"
        · have hS2 : StateOK ({ st with positioning_type := PositioningType.abs, extruder_positioning_type := PositioningType.unset } : ParseState) := hS
          obtain ⟨ev, zv, ho⟩ := stepOpen_ok hS2
          refine ⟨appendLine (openedState { st with positioning_type := PositioningType.abs, extruder_positioning_type := PositioningType.unset } ev zv) l, ?_, StateOK_open_append hC⟩
          rw [hchain, if_neg h82, if_neg h83, if_pos h90]
          exact ho
        · by_cases h91 : opcodeOf l = some "G91"
          · have hS2 : StateOK ({ st with positioning_type := PositioningType.rel, extruder_positioning_type := PositioningType.unset } : ParseState) := hS
            obtain ⟨ev, zv, ho⟩ := stepOpen_ok hS2
            refine ⟨appendLine (openedState { st with positioning_type := PositioningType.rel, extruder_positioning_type := PositioningType.unset } ev zv) l, ?_, StateOK_open_append hC⟩
            rw [hchain, if_neg h82, if_neg h83, if_neg h90, if_pos h91]
            exact ho
          · by_cases h140 : strStartsWith l "M140 S0" = true
            · have hS2 : StateOK ({ st with layer := none } : ParseState) := hS
              obtain ⟨ev, zv, ho⟩ := stepOpen_ok hS2
              refine ⟨appendLine (openedState { st with layer := none } ev zv) l, ?_, StateOK_open_append hC⟩
              rw [hchain, if_neg h82, if_neg h83, if_neg h90, if_neg h91, if_pos h140]
              exact ho
            · have h140f : strStartsWith l "M140 S0" = false := by
                cases hsw : strStartsWith l "M140 S0" with
                | false => rfl
                | true => exact absurd hsw h140
              have hbeq : (l == "") = false := beq_eq_false_iff_ne.mpr hb
              have hH2 : (match opcodeOf l with
                  | some t => t == "M82" || t == "M83" || t == "G90" || t == "G91" ||
                      MOV_OPCODES.contains t || CONTROL_OPCODES.contains t ||
                      META_OPCODES.contains t
                  | none => false) = true := by
                rw [lineHandled, hbeq, heqL, heqT, heqM, h140f] at hH
                simp only [Option.isSome_none, Bool.false_or, Bool.or_false] at hH
                exact hH
              cases hoc : opcodeOf l with
              | none => rw [hoc] at hH2; cases hH2
              | some t =>
                rw [hoc] at hH2
                have hH3 : (t == "M82" || t == "M83" || t == "G90" || t == "G91" ||
                    MOV_OPCODES.contains t || CONTROL_OPCODES.contains t ||
                    META_OPCODES.contains t) = true := hH2
                have e82 : (t == "M82") = false := beq_eq_false_iff_ne.mpr
                  (fun hcon => h82 (by rw [hoc, hcon]))
                have e83 : (t == "M83") = false := beq_eq_false_iff_ne.mpr
                  (fun hcon => h83 (by rw [hoc, hcon]))
                have e90 : (t == "G90") = false := beq_eq_false_iff_ne.mpr
                  (fun hcon => h90 (by rw [hoc, hcon]))
                have e91 : (t == "G91") = false := beq_eq_false_iff_ne.mpr
                  (fun hcon => h91 (by rw [hoc, hcon]))
                rw [e82, e83, e90, e91] at hH3
                simp only [Bool.false_or] at hH3
                have hrec : opRecognized (opcodeOf l) = true := by
                  rw [hoc]
                  show (MOV_OPCODES.contains t || CONTROL_OPCODES.contains t ||
                    META_OPCODES.contains t) = true
                  exact hH3
                refine ⟨appendLine st l, ?_, StateOK_append hS hC⟩
                rw [hchain, if_neg h82, if_neg h83, if_neg h90, if_neg h91,
                  if_neg (by rw [h140f]; exact Bool.false_ne_true), if_pos hrec]

/-- An unhandled, crash-free line makes the step raise the
unrecognized-instruction error carrying the 0-based line index and the
`repr` of the raw line. -/
theorem parseStep_err_of_unhandled {i : ℕ} {st : ParseState} {l : String}
    (hH : lineHandled l = false) (hC : lineNoCrash l = true) :
    parseStep i st l = .error (.unknownInst (mkUnknownMsg i l)) := by
  rw [lineHandled] at hH
  simp only [Bool.or_eq_false_iff] at hH
  obtain ⟨⟨⟨⟨⟨hb0, hL0⟩, hT0⟩, hM0⟩, hOp0⟩, h140f⟩ := hH
  have hb : l ≠ "" := by
    intro he
    rw [he] at hb0
    simp at hb0
  have heqL : layer_match l = none := opt_none_of_isSome_false hL0
  have heqT : type_match l = none := opt_none_of_isSome_false hT0
  have heqM : mesh_match l = none := opt_none_of_isSome_false hM0
  have htok := tok_of_noCrash hb hC
  have hop := get_opcode_ok_of_tok (Or.inr htok)
  have hchain := parseStep_op_chain i st l hb heqL heqT heqM hop
  cases hoc : opcodeOf l with
  | none => exact absurd (opcodeOf_none_tok hoc) htok
  | some t =>
    rw [hoc] at hOp0
    have hOp1 : (t == "M82" || t == "M83" || t == "G90" || t == "G91" ||
        MOV_OPCODES.contains t || CONTROL_OPCODES.contains t ||
        META_OPCODES.contains t) = false := hOp0
    simp only [Bool.or_eq_false_iff] at hOp1
    obtain ⟨⟨⟨⟨⟨⟨e82, e83⟩, e90⟩, e91⟩, emov⟩, ectrl⟩, emeta⟩ := hOp1
    have n82 : ¬ opcodeOf l = some "M82" := by
      intro hcon
      rw [hoc] at hcon
      injection hcon with hcon2
      exact (beq_eq_false_iff_ne.mp e82) hcon2
    have n83 : ¬ opcodeOf l = some "M83" := by
      intro hcon
      rw [hoc] at hcon
      injection hcon with hcon2
      exact (beq_eq_false_iff_ne.mp e83) hcon2
    have n90 : ¬ opcodeOf l = some "G90" := by
      intro hcon
      rw [hoc] at hcon
      injection hcon with hcon2
      exact (beq_eq_false_iff_ne.mp e90) hcon2
    have n91 : ¬ opcodeOf l = some "G91" := by
      intro hcon
      rw [hoc] at hcon
      injection hcon with hcon2
      exact (beq_eq_false_iff_ne.mp e91) hcon2
    have hrec : opRecognized (opcodeOf l) = false := by
      rw [hoc]
      show (MOV_OPCODES.contains t || CONTROL_OPCODES.contains t ||
        META_OPCODES.contains t) = false
      rw [emov, ectrl, emeta]
      rfl
    rw [hchain, if_neg n82, if_neg n83, if_neg n90, if_neg n91,
      if_neg (by rw [h140f]; exact Bool.false_ne_true),
      if_neg (by rw [hrec]; exact Bool.false_ne_true)]

/-- Index and text of the first line no segmentation branch handles. -/
def firstBad : ℕ → List String → Option (ℕ × String)
  | _, [] => none
  | i, l :: ls => if lineHandled l then firstBad (i + 1) ls else some (i, l)

/-- Characterization of the parser loop on crash-free inputs: it fails
with the unrecognized-instruction error at the first unhandled line, and
succeeds when every line is handled. -/
theorem parseRun_err_char : ∀ {ls : List String} {i : ℕ} {st : ParseState},
    (∀ l ∈ ls, lineNoCrash l = true) → StateOK st →
    (match firstBad i ls with
     | some p => parseRun i st ls = .error (.unknownInst (mkUnknownMsg p.1 p.2))
     | none => ∃ st2, parseRun i st ls = .ok st2)
  | [], i, st, _, _ => ⟨st, rfl⟩
  | l :: ls, i, st, hC, hS => by
    have hC0 := hC l (List.mem_cons_self l ls)
    have hCrest : ∀ x ∈ ls, lineNoCrash x = true := fun x hx =>
      hC x (List.mem_cons_of_mem _ hx)
    by_cases hH : lineHandled l = true
    · have hfb : firstBad i (l :: ls) = firstBad (i + 1) ls := by
        show (if lineHandled l = true then firstBad (i + 1) ls else some (i, l))
          = firstBad (i + 1) ls
        rw [if_pos hH]
      obtain ⟨st2, hs, hS2⟩ := @parseStep_ok_of_handled i st l hH hC0 hS
      have ih := @parseRun_err_char ls (i + 1) st2 hCrest hS2
      rw [hfb]
      cases hfb2 : firstBad (i + 1) ls with
      | some p =>
        rw [hfb2] at ih
        show parseRun i st (l :: ls) = .error (.unknownInst (mkUnknownMsg p.1 p.2))
        unfold parseRun
        rw [hs]
        exact ih
      | none =>
        rw [hfb2] at ih
        obtain ⟨st3, h3⟩ := ih
        refine ⟨st3, ?_⟩
        unfold parseRun
        rw [hs]
        exact h3
    · have hHf : lineHandled l = false := by
        cases hx : lineHandled l with
        | false => rfl
        | true => exact absurd hx hH
      have hfb : firstBad i (l :: ls) = some (i, l) := by
        show (if lineHandled l = true then firstBad (i + 1) ls else some (i, l)) = some (i, l)
        rw [if_neg (by rw [hHf]; exact Bool.false_ne_true)]
      rw [hfb]
      show parseRun i st (l :: ls) = .error (.unknownInst (mkUnknownMsg i l))
      unfold parseRun
      rw [parseStep_err_of_unhandled hHf hC0]

/-- C7 (amended claim, proved): on inputs free of whitespace-only lines
and of malformed numeric `E`/`Z` arguments on linear-move lines,
`parse_gcode` raises an error *iff* the input contains a line whose
opcode belongs to no recognized category, and the error raised is the
unrecognized-instruction exception reporting the *0-based* index and the
`repr` of the first such line.  (Outside that input class other
failures — `IndexError`, `ValueError` — are possible; see the
counterexample.) -/
theorem parse_error_characterization (g : String)
    (hC : ∀ l ∈ pySplitlines g, lineNoCrash l = true) :
    (match firstBad 0 (pySplitlines g) with
     | some p => parse_gcode g = .error (.unknownInst (mkUnknownMsg p.1 p.2))
     | none => ∃ segs, parse_gcode g = .ok segs) := by
  have hS0 : StateOK initState := fun l hl => absurd hl (List.not_mem_nil l)
  have hrun := @parseRun_err_char (pySplitlines g) 0 initState hC hS0
  cases hfb : firstBad 0 (pySplitlines g) with
  | some p =>
    rw [hfb] at hrun
    show parse_gcode g = .error (.unknownInst (mkUnknownMsg p.1 p.2))
    unfold parse_gcode
    rw [hrun]
  | none =>
    rw [hfb] at hrun
    obtain ⟨st2, h2⟩ := hrun
    refine ⟨st2.finishedRev.reverse ++ [st2.current], ?_⟩
    unfold parse_gcode
    rw [h2]

/-- C7 (counterexample): three refutations of the claim as stated.
First, the reported line number is 0-based, not 1-based: on
`"G1 X0\nXYZ 3"` the unrecognized second line is reported as
`line num 1`.  Second, an input whose every line has a recognized opcode
can still raise: `"G1 Ex\n;LAYER:0"` raises `ValueError` from
`float("x")` while resolving the closing segment's extruder position.
Third, a whitespace-only line raises `IndexError` from
`line.split()[0]`.  The latter two failures report neither line number
nor text. -/
theorem parse_error_cex :
    parse_gcode "G1 X0\nXYZ 3" = .error (.unknownInst (mkUnknownMsg 1 "XYZ 3")) ∧
    (pySplitlines "G1 X0\nXYZ 3").get? 1 = some "XYZ 3" ∧
    mkUnknownMsg 1 "XYZ 3" ≠ mkUnknownMsg 2 "XYZ 3" ∧
    parse_gcode "G1 Ex\n;LAYER:0" = .error .valueError ∧
    lineHandled "G1 Ex" = true ∧ lineHandled ";LAYER:0" = true ∧
    parse_gcode " " = .error .indexError := by
  refine ⟨?_, ?_, ?_, ?_, ?_, ?_, ?_⟩
  · with_unfolding_all rfl
  · with_unfolding_all rfl
  · decide
  · with_unfolding_all rfl
  · with_unfolding_all rfl
  · with_unfolding_all rfl
  · with_unfolding_all rfl

/-- C7 witness: the amended theorem applied to a concrete input whose
second line is unrecognized. -/
theorem parse_error_characterization_witness :
    parse_gcode "G1 X0\nFOO" = .error (.unknownInst (mkUnknownMsg 1 "FOO")) :=
  parse_error_characterization "G1 X0\nFOO" (by decide)
